import Mathlib

/-!
Verification of the stock_skill command-line tool (stock_tool.py) against its
natural-language specification.

The development is a shallow embedding of the Python source:
  - Python dicts become ordered association lists (Python dicts preserve
    insertion order), scalar cell values become the inductive type Scalar.
  - Python floats are modelled as exact rationals (Rat); theorems about exact
    JSON serialization round-trips exclude the float constructor, since the
    shortest-round-trip decimal rendering of IEEE doubles is a floating-point
    concern outside the embedding.
  - The external OpenBB facility is modelled as an oracle argument: each
    external call is a value of ExtResult, either a returned record list or a
    raised exception carrying its string form.
  - sys.exit and print are modelled by returning the printed string together
    with the process exit status.
-/

/-- A scalar cell value as found in the record mappings the tool manipulates:
Python None, bool, int, float (modelled as an exact rational) or str. -/
inductive Scalar where
  | null : Scalar
  | b : Bool → Scalar
  | i : Int → Scalar
  | f : Rat → Scalar
  | s : String → Scalar
deriving DecidableEq, Repr

/-- A result record: an ordered mapping from column name to scalar value,
modelling a Python dict (insertion order preserved). -/
def Record : Type := List (String × Scalar)

instance : DecidableEq Record := by
  unfold Record
  infer_instance

/-- Python substring containment: the test given by the expression
`pattern in key` for strings, true exactly when pattern occurs contiguously
inside key (the empty pattern is contained in every string). -/
def containsSub (key pattern : String) : Bool :=
  decide (pattern.data <:+: key.data)

/-- Embedding of find_indicator_key (stock_tool.py lines 20-25): iterate over
the keys of the mapping in order and return the first key that contains the
pattern as a substring, or None when no key matches. -/
def find_indicator_key {α : Type} : List (String × α) → String → Option String
  | [], _ => none
  | p :: ps, pattern =>
      if containsSub p.1 pattern then some p.1 else find_indicator_key ps pattern

/-- Python dict .get with no default: first binding of the key, None if the
key is absent. -/
def dictGet {α : Type} : List (String × α) → String → Option α
  | [], _ => none
  | p :: ps, k => if p.1 = k then some p.2 else dictGet ps k

/-- Embedding of get_indicator_value (stock_tool.py lines 28-31):
`key = find_indicator_key(data, pattern); return data.get(key) if key else None`.
Note the Python truthiness test `if key`: both a missing key (None) and the
empty-string key are falsy, so an empty-string found key yields None. -/
def get_indicator_value {α : Type} (data : List (String × α)) (pattern : String) :
    Option α :=
  match find_indicator_key data pattern with
  | some key => if key = "" then none else dictGet data key
  | none => none

/-- Embedding of interpret_rsi (stock_tool.py lines 252-263). The Python
parameter is Optional[float]; None means the indicator value was absent. -/
def interpret_rsi (value : Option Rat) : String :=
  match value with
  | none => "无法计算"
  | some v =>
      if v ≥ 70 then "超买区域，可能面临回调压力"
      else if v ≤ 30 then "超卖区域，可能存在反弹机会"
      else if v ≥ 50 then "偏强势，多头占优"
      else "偏弱势，空头占优"

/-- Embedding of interpret_macd (stock_tool.py lines 266-285). The Python
function receives a dict and reads the keys macd, signal and histogram with
.get, each possibly absent; the three Option arguments model those reads. -/
def interpret_macd (macd signal histogram : Option Rat) : String :=
  match macd, signal with
  | some m, some sg =>
      let h : Rat := match histogram with
        | some hv => hv
        | none => m - sg
      if m > sg ∧ h > 0 then "金叉形态，多头信号"
      else if m < sg ∧ h < 0 then "死叉形态，空头信号"
      else if m > 0 then "MACD 在零轴上方，整体偏多"
      else "MACD 在零轴下方，整体偏空"
  | _, _ => "无法计算"

/-- Embedding of interpret_adx (stock_tool.py lines 288-295). -/
def interpret_adx (value : Option Rat) : String :=
  match value with
  | none => "无法计算"
  | some v =>
      if v ≥ 25 then "趋势明显，适合趋势跟踪策略"
      else "趋势不明显，市场可能处于震荡"

/-- Embedding of interpret_stoch (stock_tool.py lines 298-313). The Python
function reads keys k and d from a dict with .get; the Option arguments model
those reads. -/
def interpret_stoch (k d : Option Rat) : String :=
  match k, d with
  | some kv, some dv =>
      if kv ≥ 80 ∧ dv ≥ 80 then "超买区域，注意回调风险"
      else if kv ≤ 20 ∧ dv ≤ 20 then "超卖区域，可能存在反弹机会"
      else if kv > dv then "K线上穿D线，短期偏多"
      else "K线下穿D线，短期偏空"
  | _, _ => "无法计算"

/-- The extractor exactly as the specification words it (claim C5): the value
associated with the first key in iteration order that contains the pattern as
a substring, absent when no key contains it.  Stated over pairs: the first
matching binding's value. -/
def specExtract {α : Type} (data : List (String × α)) (pattern : String) :
    Option α :=
  match data.find? (fun p => containsSub p.1 pattern) with
  | some p => some p.2
  | none => none

/-- The extractor as amended: the value of the first matching binding, except
that a first matching key equal to the empty string yields the absent result
(because of the Python truthiness test on the found key). -/
def specExtractAmended {α : Type} (data : List (String × α)) (pattern : String) :
    Option α :=
  match data.find? (fun p => containsSub p.1 pattern) with
  | some p => if p.1 = "" then none else some p.2
  | none => none

/-! ### String rendering helpers shared by the formatter embeddings -/

/-- Decimal digit character. -/
def digitChar (n : Nat) : Char := Char.ofNat (48 + n)

/-- Lowercase hexadecimal digit character, as produced by the Python json
encoder in \\uXXXX escapes. -/
def hexDigitChar (n : Nat) : Char :=
  if n < 10 then Char.ofNat (48 + n) else Char.ofNat (87 + n)

/-- Digits of a natural number, most significant first (fuel-based). -/
def natToDigitsAux : Nat → Nat → List Char
  | 0, _ => []
  | fuel+1, n => if n < 10 then [digitChar n]
      else natToDigitsAux fuel (n / 10) ++ [digitChar (n % 10)]

/-- Decimal rendering of a natural number, the value str(n) produces. -/
def natToDecimal (n : Nat) : String := String.mk (natToDigitsAux (n+1) n)

/-- Decimal rendering of an integer, the value str(n) produces. -/
def intToDecimal (n : Int) : String :=
  if n < 0 then "-" ++ natToDecimal n.natAbs else natToDecimal n.natAbs

/-- Number of factors p in m (fuel-based helper). -/
def facCountGo (p : Nat) : Nat → Nat → Nat
  | 0, _ => 0
  | fuel+1, m => if m % p = 0 ∧ 0 < m ∧ 1 < p then 1 + facCountGo p fuel (m / p) else 0

/-- Number of factors p in n. -/
def facCount (p n : Nat) : Nat := facCountGo p n n

/-- Strip trailing zero digits from a fraction of the given width, keeping at
least one digit: models how repr(float) prints 2.0 as "2.0" and 1.50 as
"1.5". -/
def stripZeros : Nat → Nat → Nat × Nat
  | fr, 0 => (fr, 1)
  | fr, 1 => (fr, 1)
  | fr, k+2 => if fr % 10 = 0 then stripZeros (fr / 10) (k+1) else (fr, k+2)

/-- Left-pad a string with zero characters to the given width. -/
def zeroPadLeft (s : String) (w : Nat) : String :=
  String.mk (List.replicate (w - s.length) '0') ++ s

/-- Rendering of a Python float modelled as an exact rational.  When the
denominator divides a power of ten this is the exact finite decimal (which
coincides with repr(float) on short values such as 185.5 or 2.0); the
shortest-round-trip repr of an IEEE double is a floating-point concern the
embedding does not capture, so no theorem in this file depends on this
rendering. -/
def fnumRepr (q : Rat) : String :=
  let a := facCount 2 q.den
  let b := facCount 5 q.den
  if q.den = 2 ^ a * 5 ^ b then
    let k := max 1 (max a b)
    let scaled := q.num.natAbs * 10 ^ k / q.den
    let ip := scaled / 10 ^ k
    let fr := stripZeros (scaled % 10 ^ k) k
    (if q.num < 0 then "-" else "") ++ natToDecimal ip ++ "." ++
      zeroPadLeft (natToDecimal fr.1) fr.2
  else intToDecimal q.num ++ "/" ++ natToDecimal q.den

/-- Python str.flatten: join the pieces with the separator between them. -/
def joinSep (sep : String) : List String → String
  | [] => ""
  | [x] => x
  | x :: xs => x ++ sep ++ joinSep sep xs

/-- Python str.ljust: pad on the right with spaces to the given width. -/
def ljust (s : String) (w : Nat) : String :=
  s ++ String.mk (List.replicate (w - s.length) ' ')

/-! ### JSON serialization (format_output json mode, ensure_ascii=False) -/

/-- Escape of one character inside a JSON string literal as json.dumps with
ensure_ascii=False performs it: quote, backslash and control characters are
escaped, everything from space upward is kept literally. -/
def escapeJsonChar (c : Char) : List Char :=
  if c = '"' then ['\\', '"']
  else if c = '\\' then ['\\', '\\']
  else if c = '\n' then ['\\', 'n']
  else if c = '\r' then ['\\', 'r']
  else if c = '\t' then ['\\', 't']
  else if c = '\x08' then ['\\', 'b']
  else if c = '\x0c' then ['\\', 'f']
  else if c.toNat < 32 then
    ['\\', 'u', '0', '0', hexDigitChar (c.toNat / 16), hexDigitChar (c.toNat % 16)]
  else [c]

/-- Escape a whole string for a JSON string literal (ensure_ascii=False). -/
def escapeJson (s : String) : List Char := (s.data.map escapeJsonChar).flatten

/-- A JSON string literal: quote, escaped content, quote. -/
def serString (s : String) : String := String.mk ('"' :: escapeJson s ++ ['"'])

/-- Serialization of one scalar as a JSON value. -/
def serScalar : Scalar → String
  | .null => "null"
  | .b true => "true"
  | .b false => "false"
  | .i n => intToDecimal n
  | .f q => fnumRepr q
  | .s str => serString str

/-- Indentation for json.dumps(indent=2): two spaces per level. -/
def indentPad (lvl : Nat) : String := String.mk (List.replicate (2 * lvl) ' ')

/-- One key-value member line of an indented JSON object. -/
def serMember (lvl : Nat) (kv : String × Scalar) : String :=
  indentPad lvl ++ serString kv.1 ++ ": " ++ serScalar kv.2

/-- An object (record) serialized as json.dumps(indent=2) lays it out: empty
objects collapse, otherwise one member per line at the next level. -/
def serRecord (lvl : Nat) (r : List (String × Scalar)) : String :=
  match r with
  | [] => "\x7b\x7d"
  | _ => "\x7b\n" ++ joinSep ",\n" (r.map (serMember (lvl+1))) ++
      "\n" ++ indentPad lvl ++ "\x7d"

/-- The shapes of data the tool hands to format_output: a scalar, a list of
records, or a single record mapping. -/
inductive PyData where
  | scalar : Scalar → PyData
  | list : List (List (String × Scalar)) → PyData
  | dict : List (String × Scalar) → PyData
deriving DecidableEq

/-- Embedding of the json branch of format_output (stock_tool.py line 37):
json.dumps(data, indent=2, default=str, ensure_ascii=False). -/
def jsonDumps : PyData → String
  | .scalar v => serScalar v
  | .dict r => serRecord 0 r
  | .list [] => "[]"
  | .list rs =>
      "[\n" ++ joinSep ",\n" (rs.map (fun r => indentPad 1 ++ serRecord 1 r)) ++ "\n]"

/-! ### Python str() of the same data shapes (format_output fallback) -/

/-- Python str() of one scalar. -/
def pyStr : Scalar → String
  | .null => "None"
  | .b true => "True"
  | .b false => "False"
  | .i n => intToDecimal n
  | .f q => fnumRepr q
  | .s str => str

/-- Python repr() of one scalar as it appears inside container renderings.
Simplification: strings are wrapped in single quotes without Python's
escape or quote-selection rules; no theorem depends on this rendering. -/
def pyRepr : Scalar → String
  | .s str => String.mk ['\x27'] ++ str ++ String.mk ['\x27']
  | v => pyStr v

/-- Python str() of a dict of scalars. -/
def pyStrRecord (r : List (String × Scalar)) : String :=
  "\x7b" ++ joinSep ", " (r.map (fun kv => pyRepr (.s kv.1) ++ ": " ++ pyRepr kv.2)) ++ "\x7d"

/-- Python str() of a PyData value (the fallback conversion format_output
applies to anything that is not a non-empty list, and to unknown format
selectors). -/
def pyStrData : PyData → String
  | .scalar v => pyStr v
  | .dict r => pyStrRecord r
  | .list rs => "[" ++ joinSep ", " (rs.map pyStrRecord) ++ "]"

/-! ### Table rendering (format_output table mode) -/

/-- One table cell: str(row.get(h, "")) from stock_tool.py line 41. -/
def tableCell (r : List (String × Scalar)) (h : String) : String :=
  match dictGet r h with
  | some v => pyStr v
  | none => ""

/-- stock_tool.py line 41: the cell matrix, one row of cell strings per
record, one cell per header. -/
def srcRows (all : List (List (String × Scalar))) (headers : List String) :
    List (List String) :=
  all.map (fun row => headers.map (fun h => tableCell row h))

/-- stock_tool.py line 42: per column (enumerated by index), the maximum of
the header length and of all cell lengths in that column (max over an empty
generator defaulting to 0). -/
def srcColWidths (headers : List String) (rows : List (List String)) : List Nat :=
  (List.range headers.length).map (fun i =>
    max (headers.getD i "").length ((rows.map (fun r => (r.getD i "").length)).foldr max 0))

/-- stock_tool.py line 43: the header row. -/
def srcHeaderLine (headers : List String) (colWidths : List Nat) : String :=
  joinSep " | " ((List.range headers.length).map (fun i =>
    ljust (headers.getD i "") (colWidths.getD i 0)))

/-- stock_tool.py line 44: the separator row. -/
def srcSeparator (colWidths : List Nat) : String :=
  joinSep "-+-" (colWidths.map (fun w => String.mk (List.replicate w '-')))

/-- stock_tool.py line 45: the data rows. -/
def srcDataLines (headers : List String) (colWidths : List Nat)
    (rows : List (List String)) : List String :=
  rows.map (fun r => joinSep " | " ((List.range headers.length).map (fun i =>
    ljust (r.getD i "") (colWidths.getD i 0))))

/-- The table branch of format_output (stock_tool.py lines 39-47): a
non-empty list of records is laid out as an aligned table; anything else
falls back to str(data). -/
def tableBranch : PyData → String
  | .list (r0 :: rest) =>
      let all := r0 :: rest
      let headers := r0.map Prod.fst
      let rows := srcRows all headers
      let colWidths := srcColWidths headers rows
      joinSep "\n" ([srcHeaderLine headers colWidths, srcSeparator colWidths] ++
        srcDataLines headers colWidths rows)
  | d => pyStrData d

/-- Embedding of format_output (stock_tool.py lines 34-48): json mode
serializes with indent 2 (ensure_ascii=False, default=str); table mode lays
a non-empty list of records out as an aligned text table; every other
combination falls back to str(data). -/
def format_output (data : PyData) (fmt : String) : String :=
  if fmt = "json" then jsonDumps data
  else if fmt = "table" then tableBranch data
  else pyStrData data

/-! ### Spec-side table description (claim C8 wording) -/

/-- Column width as the spec words it: the maximum of the header length and
the string lengths of all cells in that column. -/
def specColWidth (data : List (List (String × Scalar))) (h : String) : Nat :=
  max h.length ((data.map (fun r => (tableCell r h).length)).foldr max 0)

/-- Header row as the spec words it. -/
def specHeaderLine (data : List (List (String × Scalar))) (headers : List String) : String :=
  joinSep " | " (headers.map (fun h => ljust h (specColWidth data h)))

/-- Separator row as the spec words it: dashes joined by "-+-". -/
def specSeparator (data : List (List (String × Scalar))) (headers : List String) : String :=
  joinSep "-+-" (headers.map (fun h => String.mk (List.replicate (specColWidth data h) '-')))

/-- One data row as the spec words it: cell values left-justified and padded
to the column width, joined by " | ". -/
def specRowLine (data : List (List (String × Scalar))) (headers : List String)
    (r : List (String × Scalar)) : String :=
  joinSep " | " (headers.map (fun h => ljust (tableCell r h) (specColWidth data h)))

/-- The whole table as the spec words it. -/
def specTable (r0 : List (String × Scalar)) (rest : List (List (String × Scalar))) : String :=
  joinSep "\n" (specHeaderLine (r0 :: rest) (r0.map Prod.fst) ::
    specSeparator (r0 :: rest) (r0.map Prod.fst) ::
    (r0 :: rest).map (specRowLine (r0 :: rest) (r0.map Prod.fst)))

/-! ### A JSON parser for the round-trip claim (C7) -/

/-- Skip JSON whitespace. -/
def skipWs : List Char → List Char
  | [] => []
  | c :: cs => if c = ' ' ∨ c = '\n' ∨ c = '\t' ∨ c = '\r' then skipWs cs else c :: cs

/-- Value of one hexadecimal digit character. -/
def hexVal (c : Char) : Option Nat :=
  if '0' ≤ c ∧ c ≤ '9' then some (c.toNat - 48)
  else if 'a' ≤ c ∧ c ≤ 'f' then some (c.toNat - 87)
  else if 'A' ≤ c ∧ c ≤ 'F' then some (c.toNat - 55)
  else none

/-- Parse the body of a JSON string literal after the opening quote: returns
the decoded characters and the rest of the input after the closing quote.
Fuel bounds the number of decoded characters (one unit per source
character). -/
def parseStringBody : Nat → List Char → Option (List Char × List Char)
  | 0, _ => none
  | _+1, [] => none
  | fuel+1, c :: cs =>
      if c = '"' then some ([], cs)
      else if c = '\\' then
        match cs with
        | [] => none
        | e :: cs2 =>
            if e = '"' then (parseStringBody fuel cs2).map (fun p => ('"' :: p.1, p.2))
            else if e = '\\' then
              (parseStringBody fuel cs2).map (fun p => ('\\' :: p.1, p.2))
            else if e = 'n' then
              (parseStringBody fuel cs2).map (fun p => ('\n' :: p.1, p.2))
            else if e = 'r' then
              (parseStringBody fuel cs2).map (fun p => ('\r' :: p.1, p.2))
            else if e = 't' then
              (parseStringBody fuel cs2).map (fun p => ('\t' :: p.1, p.2))
            else if e = 'b' then
              (parseStringBody fuel cs2).map (fun p => ('\x08' :: p.1, p.2))
            else if e = 'f' then
              (parseStringBody fuel cs2).map (fun p => ('\x0c' :: p.1, p.2))
            else if e = 'u' then
              match cs2 with
              | h1 :: h2 :: h3 :: h4 :: cs3 =>
                  match hexVal h1, hexVal h2, hexVal h3, hexVal h4 with
                  | some a, some b2, some c2, some d2 =>
                      let n := ((a * 16 + b2) * 16 + c2) * 16 + d2
                      if n < 55296 ∨ (57344 ≤ n ∧ n < 1114112) then
                        (parseStringBody fuel cs3).map
                          (fun p => (Char.ofNat n :: p.1, p.2))
                      else none
                  | _, _, _, _ => none
              | _ => none
            else none
      else (parseStringBody fuel cs).map (fun p => (c :: p.1, p.2))

/-- Take the longest prefix of decimal digit characters. -/
def takeDigits : List Char → List Char × List Char
  | [] => ([], [])
  | c :: cs =>
      if '0' ≤ c ∧ c ≤ '9' then
        let p := takeDigits cs
        (c :: p.1, p.2)
      else ([], c :: cs)

/-- Numeric value of a list of decimal digit characters. -/
def digitsToNat (l : List Char) : Nat := l.foldl (fun a c => a * 10 + (c.toNat - 48)) 0

/-- Parse a JSON integer token (optional minus sign, then digits). -/
def parseIntTok (input : List Char) : Option (Int × List Char) :=
  if input.headD ' ' = '-' then
    let p := takeDigits (input.drop 1)
    if p.1 = [] then none else some (-(digitsToNat p.1 : Int), p.2)
  else
    let p := takeDigits input
    if p.1 = [] then none else some ((digitsToNat p.1 : Int), p.2)

/-- Parse one JSON scalar value: null, true, false, a string, or an integer
(the fragment of JSON numbers this development serializes exactly). -/
def parseScalar (sfuel : Nat) (input : List Char) : Option (Scalar × List Char) :=
  if input.take 4 = ['n', 'u', 'l', 'l'] then some (.null, input.drop 4)
  else if input.take 4 = ['t', 'r', 'u', 'e'] then some (.b true, input.drop 4)
  else if input.take 5 = ['f', 'a', 'l', 's', 'e'] then some (.b false, input.drop 5)
  else if input.headD ' ' = '"' then
    (parseStringBody sfuel (input.drop 1)).map (fun p => (Scalar.s (String.mk p.1), p.2))
  else (parseIntTok input).map (fun p => (Scalar.i p.1, p.2))

/-- Parse one key-value member of a JSON object: whitespace, a string key,
whitespace, a colon, then a scalar value. -/
def parseMemberKV (sfuel : Nat) (input : List Char) :
    Option ((String × Scalar) × List Char) :=
  match skipWs input with
  | '"' :: cs =>
      match parseStringBody sfuel cs with
      | some (kcs, rest1) =>
          match skipWs rest1 with
          | ':' :: rest2 =>
              (parseScalar sfuel (skipWs rest2)).map (fun p => ((String.mk kcs, p.1), p.2))
          | _ => none
      | none => none
  | _ => none

/-- Parse the members of a JSON object after its opening brace (at least one
member); the second fuel bounds the number of members, sfuel the string
lengths. -/
def parseMembersAux (sfuel : Nat) : Nat → List Char → Option (List (String × Scalar) × List Char)
  | 0, _ => none
  | fuel+1, input =>
      match parseMemberKV sfuel input with
      | some (kv, rest3) =>
          match skipWs rest3 with
          | ',' :: rest4 =>
              (parseMembersAux sfuel fuel rest4).map (fun p => (kv :: p.1, p.2))
          | '\x7d' :: rest4 => some ([kv], rest4)
          | _ => none
      | none => none

/-- Parse one JSON object of scalar members. -/
def parseRecord (sfuel mfuel : Nat) (input : List Char) :
    Option (List (String × Scalar) × List Char) :=
  match skipWs input with
  | '\x7b' :: cs =>
      match skipWs cs with
      | '\x7d' :: rest => some ([], rest)
      | _ => parseMembersAux sfuel mfuel cs
  | _ => none

/-- Parse the elements of a JSON array of objects after its opening bracket
(at least one element); the second fuel bounds the number of elements. -/
def parseElemsAux (sfuel : Nat) : Nat → List Char → Option (List (List (String × Scalar)) × List Char)
  | 0, _ => none
  | fuel+1, input =>
      match parseRecord sfuel fuel input with
      | some (r, rest) =>
          match skipWs rest with
          | ',' :: rest2 => (parseElemsAux sfuel fuel rest2).map (fun p => (r :: p.1, p.2))
          | ']' :: rest2 => some ([r], rest2)
          | _ => none
      | none => none

/-- Parse a complete JSON document of the shapes the tool emits: an array of
objects, an object, or a scalar, with nothing but whitespace after it.  The
fuel for the sub-parsers is the document length plus one. -/
def parseJson (str : String) : Option PyData :=
  match skipWs str.data with
  | '[' :: rest =>
      match skipWs rest with
      | ']' :: rest2 => if skipWs rest2 = [] then some (.list []) else none
      | _ =>
          match parseElemsAux (str.data.length + 1) (str.data.length + 1) rest with
          | some (rs, rest2) => if skipWs rest2 = [] then some (.list rs) else none
          | none => none
  | '\x7b' :: _ =>
      match parseRecord (str.data.length + 1) (str.data.length + 1) (skipWs str.data) with
      | some (r, rest) => if skipWs rest = [] then some (.dict r) else none
      | none => none
  | _ =>
      match parseScalar (str.data.length + 1) (skipWs str.data) with
      | some (v, rest) => if skipWs rest = [] then some (.scalar v) else none
      | none => none

/-- A scalar is exactly serializable when it is not a float: the JSON text of
null, bool, int and str values round-trips exactly, while floats go through
repr(float). -/
def scalarExact : Scalar → Bool
  | .f _ => false
  | _ => true

/-! ### External calls, error objects and the command handlers -/

/-- Result of one call to the external market-data facility: either a list of
records or a raised exception carrying its string form. -/
inductive ExtResult (α : Type) where
  | ok : α → ExtResult α
  | exc : String → ExtResult α

/-- Escape of one character as json.dumps performs it with the default
ensure_ascii=True: like the ensure_ascii=False escape, but every character
above the ASCII range is \\u-escaped as well (with surrogate pairs beyond
the basic multilingual plane). -/
def escapeAsciiChar (c : Char) : List Char :=
  if c = '"' then ['\\', '"']
  else if c = '\\' then ['\\', '\\']
  else if c = '\n' then ['\\', 'n']
  else if c = '\r' then ['\\', 'r']
  else if c = '\t' then ['\\', 't']
  else if c = '\x08' then ['\\', 'b']
  else if c = '\x0c' then ['\\', 'f']
  else if c.toNat < 32 then
    ['\\', 'u', '0', '0', hexDigitChar (c.toNat / 16), hexDigitChar (c.toNat % 16)]
  else if c.toNat < 127 then [c]
  else if c.toNat < 65536 then
    ['\\', 'u', hexDigitChar (c.toNat / 4096 % 16), hexDigitChar (c.toNat / 256 % 16),
     hexDigitChar (c.toNat / 16 % 16), hexDigitChar (c.toNat % 16)]
  else
    let v := c.toNat - 65536
    let hi := 55296 + v / 1024
    let lo := 56320 + v % 1024
    ['\\', 'u', hexDigitChar (hi / 4096 % 16), hexDigitChar (hi / 256 % 16),
     hexDigitChar (hi / 16 % 16), hexDigitChar (hi % 16),
     '\\', 'u', hexDigitChar (lo / 4096 % 16), hexDigitChar (lo / 256 % 16),
     hexDigitChar (lo / 16 % 16), hexDigitChar (lo % 16)]

/-- The JSON error object every handler prints on failure:
json.dumps(\x7b"error": err, "symbol": sym\x7d) with default separators and
default ensure_ascii=True. -/
def jsonErrObj (err sym : String) : String :=
  "\x7b\"error\": \"" ++ String.mk ((err.data.map escapeAsciiChar).flatten) ++
  "\", \"symbol\": \"" ++ String.mk ((sym.data.map escapeAsciiChar).flatten) ++ "\"\x7d"

/-- Outcome of one command handler invocation: the line printed to standard
output and the process exit status. -/
structure CmdOutcome where
  output : String
  exitCode : Nat
deriving DecidableEq

/-- Embedding of cmd_quote (stock_tool.py lines 51-64).  The external call
obb.equity.price.quote is abstracted by its result: on an exception the
handler prints the JSON error object and exits 1, on an empty result list it
prints the no-data error object and exits 1, otherwise it prints the
formatted records and returns normally (exit status 0). -/
def cmd_quote (res : ExtResult (List (List (String × Scalar)))) (symbol fmt : String) :
    CmdOutcome :=
  match res with
  | .exc e => ⟨jsonErrObj e symbol, 1⟩
  | .ok [] => ⟨jsonErrObj "No data returned" symbol, 1⟩
  | .ok rs => ⟨format_output (.list rs) fmt, 0⟩

/-- Embedding of cmd_history (stock_tool.py lines 67-91): identical outcome
structure to cmd_quote around obb.equity.price.historical (the kwargs
assembly does not influence the outcome once the call result is given). -/
def cmd_history (res : ExtResult (List (List (String × Scalar)))) (symbol fmt : String) :
    CmdOutcome :=
  match res with
  | .exc e => ⟨jsonErrObj e symbol, 1⟩
  | .ok [] => ⟨jsonErrObj "No data returned" symbol, 1⟩
  | .ok rs => ⟨format_output (.list rs) fmt, 0⟩

/-- Embedding of cmd_news (stock_tool.py lines 94-118): as cmd_quote around
obb.news.company, with the no-data message "No news found". -/
def cmd_news (res : ExtResult (List (List (String × Scalar)))) (symbol fmt : String) :
    CmdOutcome :=
  match res with
  | .exc e => ⟨jsonErrObj e symbol, 1⟩
  | .ok [] => ⟨jsonErrObj "No news found" symbol, 1⟩
  | .ok rs => ⟨format_output (.list rs) fmt, 0⟩

/-! ### The technical command -/

/-- An indicator-frame record as returned by the obb.technical calls: an
ordered mapping from column name to a numeric value or null.  (Provider
indicator columns are numeric; string-valued cells do not occur in these
frames and are outside this model.) -/
abbrev NRecord : Type := List (String × Option Rat)

/-- A value inside one indicator report entry: a possibly-null number, the
echoed integer period, the trimmed record list, or a text (interpretation or
error message). -/
inductive RVal where
  | onum : Option Rat → RVal
  | intv : Int → RVal
  | recsv : List (List (String × Option Rat)) → RVal
  | strv : String → RVal
deriving DecidableEq

/-- One indicator report entry: the dict stored under
results["indicators"][name]. -/
abbrev Entry : Type := List (String × RVal)

/-- Python dict assignment d[k] = v: replace in place if the key is present,
otherwise append the new binding at the end. -/
def dictAssign {α : Type} : List (String × α) → String → α → List (String × α)
  | [], k, v => [(k, v)]
  | p :: ps, k, v => if p.1 = k then (k, v) :: ps else p :: dictAssign ps k v

/-- The supported indicator names of the technical command. -/
def supportedIndicators : List String := ["rsi", "macd", "sma", "ema", "bbands", "adx", "stoch"]

/-- Python lst[-10:]: the most recent 10 records. -/
def last10 {α : Type} (l : List α) : List α := l.drop (l.length - 10)

/-- ASCII lowercase of one character (str.lower restricted to the ASCII
indicator names this command compares against). -/
def pyLowerChar (c : Char) : Char :=
  if 'A' ≤ c ∧ c ≤ 'Z' then Char.ofNat (c.toNat + 32) else c

/-- ASCII str.lower. -/
def pyLower (str : String) : String := String.mk (str.data.map pyLowerChar)

/-- ASCII whitespace test for str.strip. -/
def isPySpace (c : Char) : Bool :=
  c = ' ' ∨ c = '\t' ∨ c = '\n' ∨ c = '\r' ∨ c = '\x0b' ∨ c = '\x0c'

/-- Python str.strip(): remove leading and trailing whitespace. -/
def pyStrip (str : String) : String :=
  String.mk (((str.data.dropWhile isPySpace).reverse.dropWhile isPySpace).reverse)

/-- Python s.split(","): split on every comma; the empty string yields one
empty piece. -/
def splitCommaAux : List Char → List Char → List String
  | [], acc => [String.mk acc.reverse]
  | c :: cs, acc =>
      if c = ',' then String.mk acc.reverse :: splitCommaAux cs []
      else splitCommaAux cs (c :: acc)

/-- stock_tool.py line 141: the requested indicator names, split on commas,
stripped and lowercased. -/
def parseIndicators (arg : String) : List String :=
  (splitCommaAux arg.data []).map (fun t => pyLower (pyStrip t))

/-- Fetch of one named indicator value from the latest record:
get_indicator_value followed by the Python conflation of "key absent" with
"value null". -/
def gv (latest : NRecord) (pattern : String) : Option Rat :=
  (get_indicator_value latest pattern).join

/-- The per-indicator report dict built by the success branches of
cmd_technical (stock_tool.py lines 146-237), given the trimmed record list
(the most recent 10 records).  Only called for supported names. -/
def reportFor (name : String) (period : Int) (data : List NRecord) : Entry :=
  let latest := data.getLastD []
  if name = "rsi" then
    let v := gv latest ("RSI_" ++ toString period)
    [("latest", .onum v), ("period", .intv period), ("recent_data", .recsv data),
     ("interpretation", .strv (interpret_rsi v))]
  else if name = "macd" then
    let m := gv latest "MACD_12_26_9"
    let sg := gv latest "MACDs_12_26_9"
    let h := gv latest "MACDh_12_26_9"
    [("latest_macd", .onum m), ("latest_signal", .onum sg), ("latest_histogram", .onum h),
     ("recent_data", .recsv data), ("interpretation", .strv (interpret_macd m sg h))]
  else if name = "sma" then
    let v := gv latest ("SMA_" ++ toString period)
    [("latest", .onum v), ("period", .intv period), ("recent_data", .recsv data)]
  else if name = "ema" then
    let v := gv latest ("EMA_" ++ toString period)
    [("latest", .onum v), ("period", .intv period), ("recent_data", .recsv data)]
  else if name = "bbands" then
    [("upper", .onum (gv latest ("BBU_" ++ toString period))),
     ("middle", .onum (gv latest ("BBM_" ++ toString period))),
     ("lower", .onum (gv latest ("BBL_" ++ toString period))),
     ("period", .intv period), ("recent_data", .recsv data)]
  else if name = "adx" then
    let v := gv latest ("ADX_" ++ toString period)
    [("latest", .onum v), ("period", .intv period), ("recent_data", .recsv data),
     ("interpretation", .strv (interpret_adx v))]
  else
    let k := gv latest "STOCHk_14_3_3"
    let d := gv latest "STOCHd_14_3_3"
    [("k", .onum k), ("d", .onum d), ("recent_data", .recsv data),
     ("interpretation", .strv (interpret_stoch k d))]

/-- Processing of one requested indicator name inside the loop of
cmd_technical (lines 144-243): an unsupported name gets the unsupported-
indicator error entry; a supported name whose external call raises gets an
error entry with the exception text (the inner try/except); a supported call
returning records gets the report built from the 10 most recent ones; and a
supported call returning an empty result assigns nothing at all (the
`if ind_result.results:` guard has no else branch). -/
def indicatorStep (period : Int) (name : String) (res : ExtResult (List NRecord)) :
    Option Entry :=
  if name ∈ supportedIndicators then
    match res with
    | .exc e => some [("error", .strv e)]
    | .ok [] => none
    | .ok data => some (reportFor name period (last10 data))
  else some [("error", .strv ("Unsupported indicator: " ++ name))]

/-- Outcome of the technical command: a fatal JSON error with exit status 1,
or the results object (symbol plus per-indicator entries) printed via
format_output with exit status 0. -/
inductive TechOutcome where
  | fatal : String → TechOutcome
  | report : String → List (String × Entry) → TechOutcome
deriving DecidableEq

/-- Exit status of the technical command. -/
def techExit : TechOutcome → Nat
  | .fatal _ => 1
  | .report _ _ => 0

/-- Embedding of cmd_technical (stock_tool.py lines 121-249).  The history
fetch and the per-indicator calls are abstracted by their results (histRes
and oracle); a raised history fetch or an empty history series is fatal
(JSON error object, exit 1); otherwise each requested indicator name is
processed independently by indicatorStep and assigned into the indicators
dict, and the command returns normally (exit 0). -/
def cmd_technical (symbol : String) (histRes : ExtResult (List (List (String × Scalar))))
    (oracle : String → ExtResult (List NRecord)) (indicatorsArg : String) (period : Int) :
    TechOutcome :=
  match histRes with
  | .exc e => .fatal (jsonErrObj e symbol)
  | .ok [] => .fatal (jsonErrObj "No historical data for technical analysis" symbol)
  | .ok _ =>
      .report symbol ((parseIndicators indicatorsArg).foldl
        (fun acc name =>
          match indicatorStep period name (oracle name) with
          | some entry => dictAssign acc name entry
          | none => acc) [])

/-! ### Dates: the default lookback start of the technical command -/

/-- Proleptic Gregorian calendar date from a Python ordinal (ordinal 1 is
0001-01-01), extensionally equal to Python datetime.date.fromordinal; the
closed-form civil-from-days algorithm. -/
def ord2ymd (n : Nat) : Nat × Nat × Nat :=
  let z := n + 305
  let era := z / 146097
  let doe := z % 146097
  let yoe := (doe - doe / 1460 + doe / 36524 - doe / 146096) / 365
  let y := yoe + era * 400
  let doy := doe - (365 * yoe + yoe / 4 - yoe / 100)
  let mp := (5 * doy + 2) / 153
  let d := doy - (153 * mp + 2) / 5 + 1
  let m := if mp < 10 then mp + 3 else mp + 3 - 12
  (if m ≤ 2 then y + 1 else y, m, d)

/-- Python ordinal (days since 0001-01-01, that date being 1) of a proleptic
Gregorian calendar date, extensionally equal to datetime.date.toordinal. -/
def ymd2ord (y m d : Nat) : Nat :=
  let yy := if m ≤ 2 then y - 1 else y
  let era := yy / 400
  let yoe := yy % 400
  let mp := if m ≤ 2 then m + 9 else m - 3
  let doy := (153 * mp + 2) / 5 + d - 1
  let doe := yoe * 365 + yoe / 4 - yoe / 100 + doy
  era * 146097 + doe - 305

/-- Two decimal digits, zero padded (strftime %m / %d). -/
def pad2 (n : Nat) : String := String.mk [digitChar (n / 10 % 10), digitChar (n % 10)]

/-- Four decimal digits, zero padded (strftime %Y for years 1000..9999). -/
def pad4 (n : Nat) : String :=
  String.mk [digitChar (n / 1000 % 10), digitChar (n / 100 % 10),
    digitChar (n / 10 % 10), digitChar (n % 10)]

/-- strftime("%Y-%m-%d") of a calendar date. -/
def formatYmd (t : Nat × Nat × Nat) : String :=
  pad4 t.1 ++ "-" ++ pad2 t.2.1 ++ "-" ++ pad2 t.2.2

/-- The start_date the technical command passes to the history fetch
(stock_tool.py lines 130-134): the given start date when present, otherwise
(datetime.now() - timedelta(days=365)).strftime("%Y-%m-%d").  The invocation
time is abstracted by the Python ordinal of its calendar date (subtracting a
whole-day timedelta shifts the date part by exactly that many days). -/
def technicalStartDate (start : Option String) (nowOrd : Nat) : String :=
  match start with
  | some s => s
  | none => formatYmd (ord2ymd (nowOrd - 365))

/-- Digit-character test. -/
def isDigitChar (c : Char) : Bool := '0' ≤ c ∧ c ≤ '9'

/-- Value of a decimal digit character. -/
def digitVal (c : Char) : Nat := c.toNat - 48

/-- Spec-side reading of an ISO calendar date string YYYY-MM-DD. -/
def parseYmd (str : String) : Option (Nat × Nat × Nat) :=
  match str.data with
  | [a, b2, c, d, h1, e, f, h2, g, h] =>
      if h1 = '-' ∧ h2 = '-' ∧ isDigitChar a ∧ isDigitChar b2 ∧ isDigitChar c ∧
          isDigitChar d ∧ isDigitChar e ∧ isDigitChar f ∧ isDigitChar g ∧ isDigitChar h then
        some (((digitVal a * 10 + digitVal b2) * 10 + digitVal c) * 10 + digitVal d,
          digitVal e * 10 + digitVal f, digitVal g * 10 + digitVal h)
      else none
  | _ => none

lemma dictGet_cons_ne {α : Type} (p : String × α) (ps : List (String × α))
    (k : String) (h : p.1 ≠ k) : dictGet (p :: ps) k = dictGet ps k := by
  simp [dictGet, h]

lemma find_indicator_key_mem_matches {α : Type}
    (data : List (String × α)) (pattern k : String)
    (h : find_indicator_key data pattern = some k) : containsSub k pattern = true := by
  induction data with
  | nil => simp [find_indicator_key] at h
  | cons p ps ih =>
      by_cases hp : containsSub p.1 pattern = true
      · simp [find_indicator_key, hp] at h
        rw [← h]
        exact hp
      · simp [find_indicator_key, hp] at h
        exact ih h

/-- C3: the RSI interpretation classifier is total over optional numeric
inputs and partitions them into exactly five fixed captions: null yields the
cannot-compute caption, v ≥ 70 the overbought caption, v ≤ 30 the oversold
caption, 50 ≤ v < 70 the bullish-bias caption, 30 < v < 50 the bearish-bias
caption; the five captions are pairwise distinct and every input lands on one
of them. -/
theorem rsi_classifier_partition :
    interpret_rsi none = "无法计算" ∧
    (∀ v : Rat, 70 ≤ v → interpret_rsi (some v) = "超买区域，可能面临回调压力") ∧
    (∀ v : Rat, v ≤ 30 → interpret_rsi (some v) = "超卖区域，可能存在反弹机会") ∧
    (∀ v : Rat, 50 ≤ v → v < 70 → interpret_rsi (some v) = "偏强势，多头占优") ∧
    (∀ v : Rat, 30 < v → v < 50 → interpret_rsi (some v) = "偏弱势，空头占优") ∧
    (∀ v : Option Rat, interpret_rsi v ∈
      ["无法计算", "超买区域，可能面临回调压力", "超卖区域，可能存在反弹机会",
       "偏强势，多头占优", "偏弱势，空头占优"]) ∧
    ["无法计算", "超买区域，可能面临回调压力", "超卖区域，可能存在反弹机会",
     "偏强势，多头占优", "偏弱势，空头占优"].Nodup := by
  refine ⟨rfl, ?_, ?_, ?_, ?_, ?_, by decide⟩
  · intro v h
    simp only [interpret_rsi]
    split_ifs with h1 h2 h3 <;> first | rfl | linarith
  · intro v h
    simp only [interpret_rsi]
    split_ifs with h1 h2 h3 <;> first | rfl | linarith
  · intro v h1 h2
    simp only [interpret_rsi]
    split_ifs with g1 g2 g3 <;> first | rfl | linarith
  · intro v h1 h2
    simp only [interpret_rsi]
    split_ifs with g1 g2 g3 <;> first | rfl | linarith
  · intro v
    match v with
    | none => simp [interpret_rsi]
    | some x =>
        simp only [interpret_rsi]
        split_ifs <;> simp

/-- Witness for C3: the classifier evaluated at concrete points in each of the
five buckets. -/
theorem rsi_classifier_partition_witness :
    interpret_rsi (some 75) = "超买区域，可能面临回调压力" ∧
    interpret_rsi (some 25) = "超卖区域，可能存在反弹机会" ∧
    interpret_rsi (some 60) = "偏强势，多头占优" ∧
    interpret_rsi (some 40) = "偏弱势，空头占优" :=
  ⟨rsi_classifier_partition.2.1 75 (by norm_num),
   rsi_classifier_partition.2.2.1 25 (by norm_num),
   rsi_classifier_partition.2.2.2.1 60 (by norm_num) (by norm_num),
   rsi_classifier_partition.2.2.2.2.1 40 (by norm_num) (by norm_num)⟩

/-- C4: the MACD interpretation classifier: absent macd or signal yields the
cannot-compute caption; with histogram defaulting to macd − signal when
absent, macd > signal with positive histogram yields the golden-cross
caption, macd < signal with negative histogram the death-cross caption,
otherwise macd > 0 yields the above-zero-line caption and macd ≤ 0 the
below-zero-line caption. -/
theorem macd_classifier_spec :
    (∀ sg h : Option Rat, interpret_macd none sg h = "无法计算") ∧
    (∀ m h : Option Rat, interpret_macd m none h = "无法计算") ∧
    (∀ m sg : Rat, interpret_macd (some m) (some sg) none =
      interpret_macd (some m) (some sg) (some (m - sg))) ∧
    (∀ m sg h : Rat, m > sg → h > 0 →
      interpret_macd (some m) (some sg) (some h) = "金叉形态，多头信号") ∧
    (∀ m sg h : Rat, m < sg → h < 0 →
      interpret_macd (some m) (some sg) (some h) = "死叉形态，空头信号") ∧
    (∀ m sg h : Rat, ¬(m > sg ∧ h > 0) → ¬(m < sg ∧ h < 0) → m > 0 →
      interpret_macd (some m) (some sg) (some h) = "MACD 在零轴上方，整体偏多") ∧
    (∀ m sg h : Rat, ¬(m > sg ∧ h > 0) → ¬(m < sg ∧ h < 0) → m ≤ 0 →
      interpret_macd (some m) (some sg) (some h) = "MACD 在零轴下方，整体偏空") := by
  refine ⟨?_, ?_, ?_, ?_, ?_, ?_, ?_⟩
  · intro sg h; rfl
  · intro m h; cases m <;> rfl
  · intro m sg; rfl
  · intro m sg h h1 h2
    simp only [interpret_macd]
    rw [if_pos ⟨h1, h2⟩]
  · intro m sg h h1 h2
    simp only [interpret_macd]
    rw [if_neg (by rintro ⟨a, b⟩; linarith), if_pos ⟨h1, h2⟩]
  · intro m sg h h1 h2 h3
    simp only [interpret_macd]
    rw [if_neg h1, if_neg h2, if_pos h3]
  · intro m sg h h1 h2 h3
    simp only [interpret_macd]
    rw [if_neg h1, if_neg h2, if_neg (by linarith)]

/-- Witness for C4: concrete instances of the classifier cases, including the
derived-histogram rule. -/
theorem macd_classifier_spec_witness :
    interpret_macd (some (3/2)) (some 1) (some (1/2)) = "金叉形态，多头信号" ∧
    interpret_macd (some (-(3/2))) (some (-1)) (some (-(1/2))) = "死叉形态，空头信号" ∧
    interpret_macd (some 2) (some 2) (some 0) = "MACD 在零轴上方，整体偏多" ∧
    interpret_macd (some (-2)) (some (-2)) (some 0) = "MACD 在零轴下方，整体偏空" ∧
    interpret_macd (some 5) (some 1) none = interpret_macd (some 5) (some 1) (some 4) := by
  refine ⟨macd_classifier_spec.2.2.2.1 (3/2) 1 (1/2) (by norm_num) (by norm_num),
    macd_classifier_spec.2.2.2.2.1 (-(3/2)) (-1) (-(1/2)) (by norm_num) (by norm_num),
    macd_classifier_spec.2.2.2.2.2.1 2 2 0 (by norm_num) (by norm_num) (by norm_num),
    macd_classifier_spec.2.2.2.2.2.2 (-2) (-2) 0 (by norm_num) (by norm_num) (by norm_num),
    ?_⟩
  have h := macd_classifier_spec.2.2.1 5 1
  norm_num at h
  norm_num
  exact h

/-- Counterexample for C5 as stated: for the mapping with the single binding
of the empty-string key to the integer 5 and the empty pattern, the first key
in iteration order containing the pattern is the empty string with value 5,
yet the field extractor returns the absent result, because the Python
truthiness test `if key` treats the empty-string key like None. -/
theorem field_extractor_counterexample :
    specExtract [("", Scalar.i 5)] "" = some (Scalar.i 5) ∧
    get_indicator_value [("", Scalar.i 5)] "" = none ∧
    find_indicator_key [("", Scalar.i 5)] "" = some "" := by
  refine ⟨?_, ?_, ?_⟩ <;> rfl

/-- C5 as amended: the field extractor returns the value of the first binding
in iteration order whose key contains the pattern as a substring, except that
it returns the absent result both when no key contains the pattern and when
the first matching key is the empty string. -/
theorem field_extractor_amended {α : Type} (data : List (String × α))
    (pattern : String) :
    get_indicator_value data pattern = specExtractAmended data pattern := by
  induction data with
  | nil => rfl
  | cons p ps ih =>
      unfold get_indicator_value specExtractAmended
      by_cases hp : containsSub p.1 pattern = true
      · rw [show find_indicator_key (p :: ps) pattern = some p.1 by
            simp [find_indicator_key, hp]]
        rw [show List.find? (fun q : String × α => containsSub q.1 pattern) (p :: ps)
              = some p from List.find?_cons_of_pos _ hp]
        by_cases he : p.1 = ""
        · simp [he]
        · simp [he, dictGet]
      · rw [show find_indicator_key (p :: ps) pattern = find_indicator_key ps pattern by
            simp [find_indicator_key, hp]]
        rw [show List.find? (fun q : String × α => containsSub q.1 pattern) (p :: ps)
              = List.find? (fun q : String × α => containsSub q.1 pattern) ps from
            List.find?_cons_of_neg _ (by simpa using hp)]
        unfold get_indicator_value specExtractAmended at ih
        cases hk : find_indicator_key ps pattern with
        | none =>
            rw [hk] at ih
            exact ih
        | some k =>
            rw [hk] at ih
            have hkm := find_indicator_key_mem_matches ps pattern k hk
            have hne : p.1 ≠ k := by
              intro he
              rw [he] at hp
              exact hp hkm
            have ih2 : (if k = "" then none else dictGet ps k) =
                (match List.find? (fun q : String × α => containsSub q.1 pattern) ps with
                 | some q => if q.1 = "" then none else some q.2
                 | none => none) := ih
            show (if k = "" then none else dictGet (p :: ps) k) =
                (match List.find? (fun q : String × α => containsSub q.1 pattern) ps with
                 | some q => if q.1 = "" then none else some q.2
                 | none => none)
            rw [dictGet_cons_ne p ps k hne]
            exact ih2

lemma map_getD_of_lt {α β : Type} (l : List α) (f : α → β) (i : Nat) (d : α) (db : β)
    (h : i < l.length) : (l.map f).getD i db = f (l.getD i d) := by
  simp [List.getD_eq_getElem?_getD, List.getElem?_eq_getElem, h, List.getElem?_map]

lemma range_map_eq_map_getD {α β : Type} (l : List α) (G : α → β) (d : α) :
    (List.range l.length).map (fun i => G (l.getD i d)) = l.map G := by
  induction l with
  | nil => simp
  | cons x xs ih =>
      rw [List.length_cons, List.range_succ_eq_map, List.map_cons, List.map_map,
        List.map_cons]
      have h2 : (fun i => G ((x :: xs).getD i d)) ∘ Nat.succ
          = (fun i => G (xs.getD i d)) :=
        funext (fun i => by simp [Function.comp, List.getD_cons_succ])
      rw [h2, ih, List.getD_cons_zero]

lemma range_map_eq {α β : Type} (l : List α) (d : α) (F : Nat → β) (G : α → β)
    (h : ∀ i, i < l.length → F i = G (l.getD i d)) :
    (List.range l.length).map F = l.map G := by
  have h1 : (List.range l.length).map F
      = (List.range l.length).map (fun i => G (l.getD i d)) :=
    List.map_congr_left (fun i hi => h i (List.mem_range.mp hi))
  rw [h1, range_map_eq_map_getD]

lemma srcColWidths_eq (all : List (List (String × Scalar))) (hs : List String) :
    srcColWidths hs (srcRows all hs) = hs.map (specColWidth all) := by
  unfold srcColWidths srcRows specColWidth
  apply range_map_eq hs ""
  intro i hi
  congr 1
  rw [List.map_map]
  congr 1
  apply List.map_congr_left
  intro row _
  simp only [Function.comp]
  rw [map_getD_of_lt hs (fun h => tableCell row h) i "" "" hi]

lemma srcHeaderLine_eq (all : List (List (String × Scalar))) (hs : List String) :
    srcHeaderLine hs (hs.map (specColWidth all)) = specHeaderLine all hs := by
  unfold srcHeaderLine specHeaderLine
  congr 1
  apply range_map_eq hs ""
  intro i hi
  rw [map_getD_of_lt hs (specColWidth all) i "" 0 hi]

lemma srcSeparator_eq (all : List (List (String × Scalar))) (hs : List String) :
    srcSeparator (hs.map (specColWidth all)) = specSeparator all hs := by
  unfold srcSeparator specSeparator
  rw [List.map_map]
  rfl

lemma srcDataLines_eq (all : List (List (String × Scalar))) (hs : List String) :
    srcDataLines hs (hs.map (specColWidth all)) (srcRows all hs) =
      all.map (specRowLine all hs) := by
  unfold srcDataLines srcRows
  rw [List.map_map]
  apply List.map_congr_left
  intro row _
  simp only [Function.comp]
  unfold specRowLine
  congr 1
  apply range_map_eq hs ""
  intro i hi
  rw [map_getD_of_lt hs (fun h => tableCell row h) i "" "" hi,
    map_getD_of_lt hs (specColWidth all) i "" 0 hi]

lemma format_output_table_eq (r0 : List (String × Scalar))
    (rest : List (List (String × Scalar))) :
    format_output (.list (r0 :: rest)) "table" = specTable r0 rest := by
  show tableBranch (.list (r0 :: rest)) = specTable r0 rest
  show joinSep "\n"
      ([srcHeaderLine (r0.map Prod.fst)
          (srcColWidths (r0.map Prod.fst) (srcRows (r0 :: rest) (r0.map Prod.fst))),
        srcSeparator
          (srcColWidths (r0.map Prod.fst) (srcRows (r0 :: rest) (r0.map Prod.fst)))] ++
        srcDataLines (r0.map Prod.fst)
          (srcColWidths (r0.map Prod.fst) (srcRows (r0 :: rest) (r0.map Prod.fst)))
          (srcRows (r0 :: rest) (r0.map Prod.fst)))
      = specTable r0 rest
  rw [srcColWidths_eq, srcHeaderLine_eq, srcSeparator_eq, srcDataLines_eq]
  rfl

lemma containsSub_append_of_left (a b p : String) (h : containsSub a p = true) :
    containsSub (a ++ b) p = true := by
  simp only [containsSub, decide_eq_true_eq, String.data_append] at h ⊢
  exact h.trans ⟨[], b.data, by simp⟩

/-- C2: each of the quote, history and news handlers prints the JSON error
object with the symbol and the no-data message and exits 1 on an empty result
set, prints the JSON error object with the symbol and the exception text and
exits 1 on an exception from the external call, and otherwise prints the
formatted result and exits 0; the error objects carry the "error" key. -/
theorem command_handlers_error_discipline (sym fmt e : String)
    (rs : List (List (String × Scalar))) (hrs : rs ≠ []) :
    cmd_quote (.ok []) sym fmt = ⟨jsonErrObj "No data returned" sym, 1⟩ ∧
    cmd_quote (.exc e) sym fmt = ⟨jsonErrObj e sym, 1⟩ ∧
    cmd_quote (.ok rs) sym fmt = ⟨format_output (.list rs) fmt, 0⟩ ∧
    cmd_history (.ok []) sym fmt = ⟨jsonErrObj "No data returned" sym, 1⟩ ∧
    cmd_history (.exc e) sym fmt = ⟨jsonErrObj e sym, 1⟩ ∧
    cmd_history (.ok rs) sym fmt = ⟨format_output (.list rs) fmt, 0⟩ ∧
    cmd_news (.ok []) sym fmt = ⟨jsonErrObj "No news found" sym, 1⟩ ∧
    cmd_news (.exc e) sym fmt = ⟨jsonErrObj e sym, 1⟩ ∧
    cmd_news (.ok rs) sym fmt = ⟨format_output (.list rs) fmt, 0⟩ ∧
    containsSub (jsonErrObj "No data returned" sym) "\"error\"" = true ∧
    containsSub (jsonErrObj "No news found" sym) "\"error\"" = true := by
  match rs, hrs with
  | r :: t, _ =>
      refine ⟨rfl, rfl, rfl, rfl, rfl, rfl, rfl, rfl, rfl, ?_, ?_⟩ <;>
      · unfold jsonErrObj
        apply containsSub_append_of_left
        apply containsSub_append_of_left
        apply containsSub_append_of_left
        apply containsSub_append_of_left
        decide

/-- Witness for C2: the quote handler at concrete inputs, one per behaviour
class. -/
theorem command_handlers_error_discipline_witness :
    cmd_quote (.ok []) "AAPL" "json" = ⟨jsonErrObj "No data returned" "AAPL", 1⟩ ∧
    cmd_quote (.exc "boom") "AAPL" "json" = ⟨jsonErrObj "boom" "AAPL", 1⟩ ∧
    cmd_quote (.ok [[("price", Scalar.i 185)]]) "AAPL" "json"
      = ⟨format_output (.list [[("price", Scalar.i 185)]]) "json", 0⟩ ∧
    cmd_news (.ok []) "AAPL" "json" = ⟨jsonErrObj "No news found" "AAPL", 1⟩ :=
  have h := command_handlers_error_discipline "AAPL" "json" "boom"
    [[("price", Scalar.i 185)]] (by simp)
  ⟨h.1, h.2.1, h.2.2.1, h.2.2.2.2.2.2.1⟩

/-- C8: table mode on a non-empty list of records produces the header row of
the first record's keys in order, the dash separator joined by "-+-", and one
row per record with cells left-justified to the column width (the maximum of
the header length and all cell lengths in that column), columns joined by
" | "; any other input (empty list, scalar, single mapping) is rendered by
the direct string conversion. -/
theorem table_mode_spec (r0 : List (String × Scalar))
    (rest : List (List (String × Scalar))) (v : Scalar)
    (dct : List (String × Scalar)) :
    format_output (.list (r0 :: rest)) "table" = specTable r0 rest ∧
    format_output (.list []) "table" = pyStrData (.list []) ∧
    format_output (.scalar v) "table" = pyStrData (.scalar v) ∧
    format_output (.dict dct) "table" = pyStrData (.dict dct) :=
  ⟨format_output_table_eq r0 rest, rfl, rfl, rfl⟩

/-- C10: a record after the first that lacks one of the header keys still
gets a rendered row; the missing cell is the empty string, padded to the
column width with spaces, and the table renders one line per record with the
header and separator lines in front. -/
theorem table_missing_key_cell (r0 r : List (String × Scalar))
    (rest : List (List (String × Scalar))) (hk : String)
    (hr : r ∈ r0 :: rest) (hh : hk ∈ r0.map Prod.fst)
    (hmiss : dictGet r hk = none) :
    tableCell r hk = "" ∧
    ljust (tableCell r hk) (specColWidth (r0 :: rest) hk) =
      String.mk (List.replicate (specColWidth (r0 :: rest) hk) ' ') ∧
    format_output (.list (r0 :: rest)) "table" =
      joinSep "\n" (specHeaderLine (r0 :: rest) (r0.map Prod.fst) ::
        specSeparator (r0 :: rest) (r0.map Prod.fst) ::
        (r0 :: rest).map (specRowLine (r0 :: rest) (r0.map Prod.fst))) ∧
    specRowLine (r0 :: rest) (r0.map Prod.fst) r =
      joinSep " | " ((r0.map Prod.fst).map (fun h =>
        ljust (tableCell r h) (specColWidth (r0 :: rest) h))) := by
  have h1 : tableCell r hk = "" := by
    unfold tableCell
    rw [hmiss]
  refine ⟨h1, ?_, format_output_table_eq r0 rest, rfl⟩
  rw [h1]
  unfold ljust
  apply String.ext
  simp [String.data_append]

/-- Witness for C10: a two-record table where the second record lacks the
second header key; its cell is the empty string padded to width 5. -/
theorem table_missing_key_cell_witness :
    tableCell [("name", Scalar.s "GOOGL")] "price" = "" ∧
    ljust (tableCell [("name", Scalar.s "GOOGL")] "price")
        (specColWidth [[("name", Scalar.s "AAPL"), ("price", Scalar.f 185.5)],
          [("name", Scalar.s "GOOGL")]] "price") =
      String.mk (List.replicate (specColWidth
        [[("name", Scalar.s "AAPL"), ("price", Scalar.f 185.5)],
          [("name", Scalar.s "GOOGL")]] "price") ' ') :=
  have h := table_missing_key_cell
    [("name", Scalar.s "AAPL"), ("price", Scalar.f 185.5)]
    [("name", Scalar.s "GOOGL")]
    [[("name", Scalar.s "GOOGL")]] "price"
    (by simp) (by simp) (by rfl)
  ⟨h.1, h.2.1⟩

lemma dictGet_dictAssign {α : Type} (d : List (String × α)) (k k2 : String) (v : α) :
    dictGet (dictAssign d k v) k2 = if k2 = k then some v else dictGet d k2 := by
  induction d with
  | nil =>
      simp only [dictAssign, dictGet]
      by_cases h : k2 = k
      · subst h
        simp
      · rw [if_neg h, if_neg (fun he => h he.symm)]
  | cons p ps ih =>
      simp only [dictAssign]
      by_cases hp : p.1 = k
      · rw [if_pos hp]
        simp only [dictGet]
        by_cases h2 : k2 = k
        · subst h2
          rw [if_pos rfl, if_pos rfl]
        · rw [if_neg (fun he : k = k2 => h2 he.symm), if_neg h2,
            if_neg (show ¬(p.1 = k2) from fun he => h2 ((hp.symm.trans he).symm))]
      · rw [if_neg hp]
        simp only [dictGet]
        by_cases h3 : p.1 = k2
        · rw [if_pos h3, if_neg (show ¬(k2 = k) from fun he => hp (h3.trans he)), if_pos h3]
        · rw [if_neg h3, ih]
          by_cases h2 : k2 = k
          · rw [if_pos h2, if_pos h2]
          · rw [if_neg h2, if_neg h2, if_neg h3]

lemma foldl_indicator_lookup (period : Int) (oracle : String → ExtResult (List NRecord))
    (l : List String) (acc : List (String × Entry)) (name : String) :
    dictGet (l.foldl (fun acc n =>
        match indicatorStep period n (oracle n) with
        | some entry => dictAssign acc n entry
        | none => acc) acc) name =
      if name ∈ l ∧ (indicatorStep period name (oracle name)).isSome
      then indicatorStep period name (oracle name)
      else dictGet acc name := by
  induction l generalizing acc with
  | nil => simp
  | cons x xs ih =>
      rw [List.foldl_cons, ih]
      by_cases hx : name = x
      · subst hx
        cases hstep : indicatorStep period name (oracle name) with
        | none => simp [hstep]
        | some e =>
            simp only [hstep, Option.isSome_some, and_true, List.mem_cons, true_or,
              if_true, eq_self_iff_true]
            by_cases hmem : name ∈ xs
            · simp [hmem]
            · simp [hmem, dictGet_dictAssign]
      · cases hstep : indicatorStep period x (oracle x) with
        | none =>
            simp only [hstep, List.mem_cons]
            by_cases hmem : name ∈ xs ∧ (indicatorStep period name (oracle name)).isSome
            · rw [if_pos hmem, if_pos ⟨Or.inr hmem.1, hmem.2⟩]
            · rw [if_neg hmem, if_neg (fun hc => hmem ⟨hc.1.resolve_left hx, hc.2⟩)]
        | some e =>
            simp only [hstep, List.mem_cons]
            by_cases hmem : name ∈ xs ∧ (indicatorStep period name (oracle name)).isSome
            · rw [if_pos hmem, if_pos ⟨Or.inr hmem.1, hmem.2⟩]
            · rw [if_neg hmem, if_neg (fun hc => hmem ⟨hc.1.resolve_left hx, hc.2⟩),
                dictGet_dictAssign, if_neg hx]

/-- C1: given a non-empty history series, the technical command exits 0
whatever the per-indicator calls do; a supported indicator whose external
call raises gets an error entry carrying the exception text; a supported
indicator whose call returns records gets its report (independently of every
other indicator, in particular of siblings that raised); and an unsupported
name gets the Unsupported-indicator entry without failing the command. -/
theorem technical_per_indicator_isolation (symbol indicatorsArg : String)
    (period : Int) (h0 : List (String × Scalar))
    (hrest : List (List (String × Scalar)))
    (oracle : String → ExtResult (List NRecord)) :
    techExit (cmd_technical symbol (.ok (h0 :: hrest)) oracle indicatorsArg period) = 0 ∧
    ∃ rep, cmd_technical symbol (.ok (h0 :: hrest)) oracle indicatorsArg period
        = .report symbol rep ∧
      (∀ name, name ∈ parseIndicators indicatorsArg → name ∈ supportedIndicators →
        ∀ e, oracle name = .exc e →
          dictGet rep name = some [("error", RVal.strv e)]) ∧
      (∀ name, name ∈ parseIndicators indicatorsArg → name ∈ supportedIndicators →
        ∀ d ds, oracle name = .ok (d :: ds) →
          dictGet rep name = some (reportFor name period (last10 (d :: ds)))) ∧
      (∀ name, name ∈ parseIndicators indicatorsArg → name ∉ supportedIndicators →
        dictGet rep name
          = some [("error", RVal.strv ("Unsupported indicator: " ++ name))]) := by
  refine ⟨rfl, _, rfl, ?_, ?_, ?_⟩
  · intro name hmem hsup e horacle
    show dictGet ((parseIndicators indicatorsArg).foldl _ []) name = _
    rw [foldl_indicator_lookup]
    have hstep : indicatorStep period name (oracle name) = some [("error", RVal.strv e)] := by
      unfold indicatorStep
      rw [horacle, if_pos hsup]
    rw [if_pos ⟨hmem, by rw [hstep]; rfl⟩, hstep]
  · intro name hmem hsup d ds horacle
    show dictGet ((parseIndicators indicatorsArg).foldl _ []) name = _
    rw [foldl_indicator_lookup]
    have hstep : indicatorStep period name (oracle name)
        = some (reportFor name period (last10 (d :: ds))) := by
      unfold indicatorStep
      rw [horacle, if_pos hsup]
    rw [if_pos ⟨hmem, by rw [hstep]; rfl⟩, hstep]
  · intro name hmem hsup
    show dictGet ((parseIndicators indicatorsArg).foldl _ []) name = _
    rw [foldl_indicator_lookup]
    have hstep : indicatorStep period name (oracle name)
        = some [("error", RVal.strv ("Unsupported indicator: " ++ name))] := by
      unfold indicatorStep
      rw [if_neg hsup]
    rw [if_pos ⟨hmem, by rw [hstep]; rfl⟩, hstep]

/-- The concrete oracle of the C1 witness: the rsi call raises, the macd call
returns one record, every other call returns one empty record list. -/
def oracleW1 : String → ExtResult (List NRecord) := fun n =>
  if n = "rsi" then .exc "boom"
  else .ok [[("MACD_12_26_9", some 2), ("MACDs_12_26_9", some 1), ("MACDh_12_26_9", some 1)]]

/-- Witness for C1: with indicators "rsi,macd,wtf", the raising rsi call
yields its error entry, the macd report is still produced, the unsupported
name gets its entry, and the command exits 0. -/
theorem technical_per_indicator_isolation_witness :
    techExit (cmd_technical "AAPL" (.ok [[("close", Scalar.i 1)]]) oracleW1
      "rsi,macd,wtf" 14) = 0 ∧
    ∃ rep, cmd_technical "AAPL" (.ok [[("close", Scalar.i 1)]]) oracleW1
        "rsi,macd,wtf" 14 = .report "AAPL" rep ∧
      dictGet rep "rsi" = some [("error", RVal.strv "boom")] ∧
      dictGet rep "macd" = some (reportFor "macd" 14
        (last10 [[("MACD_12_26_9", some 2), ("MACDs_12_26_9", some 1),
          ("MACDh_12_26_9", some 1)]])) ∧
      dictGet rep "wtf" = some [("error", RVal.strv "Unsupported indicator: wtf")] := by
  obtain ⟨hexit, rep, hrep, hexc, hok, hunsup⟩ :=
    technical_per_indicator_isolation "AAPL" "rsi,macd,wtf" 14
      [("close", Scalar.i 1)] [] oracleW1
  refine ⟨hexit, rep, hrep, ?_, ?_, ?_⟩
  · exact hexc "rsi" (by decide) (by decide) "boom" rfl
  · exact hok "macd" (by decide) (by decide)
      [("MACD_12_26_9", some 2), ("MACDs_12_26_9", some 1), ("MACDh_12_26_9", some 1)]
      [] rfl
  · exact hunsup "wtf" (by decide) (by decide)

/-- Counterexample for C6 as stated: requesting the single indicator rsi
whose external call succeeds with an empty result set leaves the indicators
report empty: the requested name has no entry at all, not an error entry
(the success branch `if ind_result.results:` has no else). -/
theorem technical_entry_counterexample :
    ("rsi" ∈ parseIndicators "rsi") ∧
    cmd_technical "AAPL" (.ok [[("close", Scalar.i 1)]]) (fun _ => .ok []) "rsi" 14
      = .report "AAPL" [] ∧
    dictGet ([] : List (String × Entry)) "rsi" = none := by
  refine ⟨by decide, rfl, rfl⟩

/-- C6 as amended: in the indicator report, a requested unsupported name and
a requested supported name whose call raises carry an error-message entry; a
requested supported name whose call returns a non-empty result carries the
report built from the 10 most recent records, with the echoed period where
applicable; but a requested supported name whose call returns an empty result
set has no entry at all.  The per-indicator report shapes are the fixed key
lists of the source. -/
theorem technical_report_characterization (symbol indicatorsArg : String)
    (period : Int) (h0 : List (String × Scalar))
    (hrest : List (List (String × Scalar)))
    (oracle : String → ExtResult (List NRecord)) :
    ∃ rep, cmd_technical symbol (.ok (h0 :: hrest)) oracle indicatorsArg period
        = .report symbol rep ∧
      (∀ name, name ∈ parseIndicators indicatorsArg →
        dictGet rep name =
          if name ∈ supportedIndicators then
            match oracle name with
            | .exc e => some [("error", RVal.strv e)]
            | .ok [] => none
            | .ok data => some (reportFor name period (last10 data))
          else some [("error", RVal.strv ("Unsupported indicator: " ++ name))]) ∧
      (∀ d : List NRecord,
        (reportFor "rsi" period d).map Prod.fst
          = ["latest", "period", "recent_data", "interpretation"] ∧
        (reportFor "macd" period d).map Prod.fst
          = ["latest_macd", "latest_signal", "latest_histogram", "recent_data",
             "interpretation"] ∧
        (reportFor "sma" period d).map Prod.fst = ["latest", "period", "recent_data"] ∧
        (reportFor "ema" period d).map Prod.fst = ["latest", "period", "recent_data"] ∧
        (reportFor "bbands" period d).map Prod.fst
          = ["upper", "middle", "lower", "period", "recent_data"] ∧
        (reportFor "adx" period d).map Prod.fst
          = ["latest", "period", "recent_data", "interpretation"] ∧
        (reportFor "stoch" period d).map Prod.fst
          = ["k", "d", "recent_data", "interpretation"] ∧
        dictGet (reportFor "rsi" period d) "period" = some (RVal.intv period) ∧
        dictGet (reportFor "rsi" period d) "recent_data" = some (RVal.recsv d)) := by
  refine ⟨_, rfl, ?_, ?_⟩
  · intro name hmem
    show dictGet ((parseIndicators indicatorsArg).foldl _ []) name = _
    rw [foldl_indicator_lookup]
    show (if name ∈ parseIndicators indicatorsArg ∧
          (indicatorStep period name (oracle name)).isSome
        then indicatorStep period name (oracle name)
        else dictGet ([] : List (String × Entry)) name)
      = indicatorStep period name (oracle name)
    cases hstep : indicatorStep period name (oracle name) with
    | none =>
        simp only [hstep, Option.isSome_none, Bool.false_eq_true, and_false, if_false]
        rfl
    | some e => simp [hstep, hmem]
  · intro d
    refine ⟨rfl, rfl, rfl, rfl, rfl, rfl, rfl, rfl, rfl⟩

/-- Witness for C6 (amended): with indicators "rsi,sma,nope", a raising rsi
call gets an error entry, a successful sma call gets its report, the
unsupported name gets its entry, and a supported indicator with an empty
result really has no entry (second command). -/
theorem technical_report_characterization_witness :
    (∃ rep, cmd_technical "AAPL" (.ok [[("close", Scalar.i 1)]]) oracleW1
        "rsi" 14 = .report "AAPL" rep ∧
      dictGet rep "rsi" = some [("error", RVal.strv "boom")]) ∧
    (∃ rep, cmd_technical "AAPL" (.ok [[("close", Scalar.i 1)]])
        (fun _ => .ok []) "rsi" 14 = .report "AAPL" rep ∧
      dictGet rep "rsi" = none) := by
  constructor
  · obtain ⟨rep, hrep, hchar, _⟩ :=
      technical_report_characterization "AAPL" "rsi" 14 [("close", Scalar.i 1)] [] oracleW1
    refine ⟨rep, hrep, ?_⟩
    have h := hchar "rsi" (by decide)
    rw [h]
    rfl
  · obtain ⟨rep, hrep, hchar, _⟩ :=
      technical_report_characterization "AAPL" "rsi" 14 [("close", Scalar.i 1)] []
        (fun _ => .ok [])
    refine ⟨rep, hrep, ?_⟩
    have h := hchar "rsi" (by decide)
    rw [h]
    rfl

lemma hexVal_hexDigitChar (n : Nat) (h : n < 16) : hexVal (hexDigitChar n) = some n := by
  interval_cases n <;> rfl

lemma skipWs_cons_not_ws (c : Char) (l : List Char)
    (h : ¬(c = ' ' ∨ c = '\n' ∨ c = '\t' ∨ c = '\r')) : skipWs (c :: l) = c :: l := by
  simp only [skipWs, if_neg h]

lemma skipWs_cons_ws (c : Char) (l : List Char)
    (h : c = ' ' ∨ c = '\n' ∨ c = '\t' ∨ c = '\r') : skipWs (c :: l) = skipWs l := by
  simp only [skipWs, if_pos h]

lemma skipWs_replicate_space (n : Nat) (l : List Char) :
    skipWs (List.replicate n ' ' ++ l) = skipWs l := by
  induction n with
  | zero => rfl
  | succ m ih =>
      rw [List.replicate_succ, List.cons_append, skipWs_cons_ws _ _ (Or.inl rfl), ih]

lemma parseStringBody_escapeChar (c : Char) (l : List Char) (f : Nat) :
    parseStringBody (f+1) (escapeJsonChar c ++ l)
      = (parseStringBody f l).map (fun p => (c :: p.1, p.2)) := by
  unfold escapeJsonChar
  split_ifs with h1 h2 h3 h4 h5 h6 h7 h8
  · subst h1
    rfl
  · subst h2
    rfl
  · subst h3
    rfl
  · subst h4
    rfl
  · subst h5
    rfl
  · subst h6
    rfl
  · subst h7
    rfl
  · -- control character below 32: escaped as \u00XY
    have ha : c.toNat / 16 < 16 := by omega
    have hb : c.toNat % 16 < 16 := by omega
    show parseStringBody (f+1) ('\\' :: 'u' :: '0' :: '0' ::
        hexDigitChar (c.toNat / 16) :: hexDigitChar (c.toNat % 16) :: l) = _
    rw [show parseStringBody (f+1) ('\\' :: 'u' :: '0' :: '0' ::
        hexDigitChar (c.toNat / 16) :: hexDigitChar (c.toNat % 16) :: l)
      = (match hexVal '0', hexVal '0', hexVal (hexDigitChar (c.toNat / 16)),
            hexVal (hexDigitChar (c.toNat % 16)) with
         | some a, some b2, some c2, some d2 =>
             let n := ((a * 16 + b2) * 16 + c2) * 16 + d2
             if n < 55296 ∨ (57344 ≤ n ∧ n < 1114112) then
               (parseStringBody f l).map (fun p => (Char.ofNat n :: p.1, p.2))
             else none
         | _, _, _, _ => none) from rfl]
    rw [hexVal_hexDigitChar _ ha, hexVal_hexDigitChar _ hb]
    show (let n := ((0 * 16 + 0) * 16 + c.toNat / 16) * 16 + c.toNat % 16
          if n < 55296 ∨ (57344 ≤ n ∧ n < 1114112) then
            (parseStringBody f l).map (fun p => (Char.ofNat n :: p.1, p.2))
          else none) = _
    have hn : ((0 * 16 + 0) * 16 + c.toNat / 16) * 16 + c.toNat % 16 = c.toNat := by
      omega
    simp only [hn]
    rw [if_pos (Or.inl (by omega))]
    rw [Char.ofNat_toNat]
  · -- ordinary character kept literally
    show parseStringBody (f+1) (c :: l) = _
    show (if c = '"' then some ([], l)
        else if c = '\\' then
          match l with
          | [] => none
          | e :: cs2 =>
              if e = '"' then (parseStringBody f cs2).map (fun p => ('"' :: p.1, p.2))
              else if e = '\\' then
                (parseStringBody f cs2).map (fun p => ('\\' :: p.1, p.2))
              else if e = 'n' then
                (parseStringBody f cs2).map (fun p => ('\n' :: p.1, p.2))
              else if e = 'r' then
                (parseStringBody f cs2).map (fun p => ('\r' :: p.1, p.2))
              else if e = 't' then
                (parseStringBody f cs2).map (fun p => ('\t' :: p.1, p.2))
              else if e = 'b' then
                (parseStringBody f cs2).map (fun p => ('\x08' :: p.1, p.2))
              else if e = 'f' then
                (parseStringBody f cs2).map (fun p => ('\x0c' :: p.1, p.2))
              else if e = 'u' then
                match cs2 with
                | h1 :: h2 :: h3 :: h4 :: cs3 =>
                    match hexVal h1, hexVal h2, hexVal h3, hexVal h4 with
                    | some a, some b2, some c2, some d2 =>
                        let n := ((a * 16 + b2) * 16 + c2) * 16 + d2
                        if n < 55296 ∨ (57344 ≤ n ∧ n < 1114112) then
                          (parseStringBody f cs3).map (fun p => (Char.ofNat n :: p.1, p.2))
                        else none
                    | _, _, _, _ => none
                | _ => none
              else none
        else (parseStringBody f l).map (fun p => (c :: p.1, p.2)))
      = (parseStringBody f l).map (fun p => (c :: p.1, p.2))
    rw [if_neg h1, if_neg h2]

lemma parseStringBody_escape_list (xs : List Char) (l : List Char) (fuel : Nat)
    (hf : xs.length + 1 ≤ fuel) :
    parseStringBody fuel ((xs.map escapeJsonChar).flatten ++ '"' :: l) = some (xs, l) := by
  induction xs generalizing fuel with
  | nil =>
      match fuel, hf with
      | f+1, _ => rfl
  | cons c cs ih =>
      match fuel, hf with
      | f+1, hf =>
          rw [List.map_cons, List.flatten_cons, List.append_assoc,
            parseStringBody_escapeChar,
            ih f (by rw [List.length_cons] at hf; omega)]
          rfl

lemma digitChar_toNat (n : Nat) (h : n < 10) : (digitChar n).toNat = 48 + n := by
  interval_cases n <;> rfl

lemma isDigitChar_digitChar (n : Nat) (h : n < 10) : isDigitChar (digitChar n) = true := by
  interval_cases n <;> rfl

lemma natToDigitsAux_all_digits (fuel n : Nat) :
    ∀ c ∈ natToDigitsAux fuel n, isDigitChar c = true := by
  induction fuel generalizing n with
  | zero => intro c hc; simp [natToDigitsAux] at hc
  | succ f ih =>
      intro c hc
      unfold natToDigitsAux at hc
      by_cases hn : n < 10
      · rw [if_pos hn] at hc
        simp at hc
        rw [hc]
        exact isDigitChar_digitChar n hn
      · rw [if_neg hn] at hc
        rw [List.mem_append] at hc
        cases hc with
        | inl h2 => exact ih (n / 10) c h2
        | inr h2 =>
            simp at h2
            rw [h2]
            exact isDigitChar_digitChar (n % 10) (by omega)

lemma natToDigitsAux_ne_nil (fuel n : Nat) : natToDigitsAux (fuel+1) n ≠ [] := by
  unfold natToDigitsAux
  by_cases hn : n < 10
  · rw [if_pos hn]
    simp
  · rw [if_neg hn]
    simp

lemma digitsToNat_append_digit (a : List Char) (d : Char) :
    digitsToNat (a ++ [d]) = digitsToNat a * 10 + (d.toNat - 48) := by
  unfold digitsToNat
  rw [List.foldl_append]
  rfl

lemma digitsToNat_natToDigitsAux (fuel n : Nat) (h : n < 10 ^ fuel) :
    digitsToNat (natToDigitsAux fuel n) = n := by
  induction fuel generalizing n with
  | zero =>
      simp [natToDigitsAux, digitsToNat]
      omega
  | succ f ih =>
      unfold natToDigitsAux
      by_cases hn : n < 10
      · rw [if_pos hn]
        show digitsToNat [digitChar n] = n
        unfold digitsToNat
        simp [digitChar_toNat n hn]
      · rw [if_neg hn, digitsToNat_append_digit,
          ih (n / 10) (by rw [pow_succ] at h; omega),
          digitChar_toNat (n % 10) (by omega)]
        omega

lemma isDigitChar_not_ws (c : Char) (h : isDigitChar c = true) :
    ¬(c = ' ' ∨ c = '\n' ∨ c = '\t' ∨ c = '\r') := by
  intro hc
  rcases hc with h2 | h2 | h2 | h2 <;> rw [h2] at h <;> exact absurd h (by decide)

lemma takeDigits_digits_append (ds l : List Char)
    (hd : ∀ c ∈ ds, isDigitChar c = true)
    (hl : isDigitChar (l.headD ' ') = false) :
    takeDigits (ds ++ l) = (ds, l) := by
  induction ds with
  | nil =>
      cases l with
      | nil => rfl
      | cons c cs =>
          show takeDigits (c :: cs) = ([], c :: cs)
          unfold takeDigits
          rw [if_neg]
          intro hcon
          rw [show c = (c :: cs : List Char).headD ' ' from rfl] at hcon
          rw [show isDigitChar ((c :: cs : List Char).headD ' ') =
            decide ('0' ≤ (c :: cs : List Char).headD ' ' ∧
              (c :: cs : List Char).headD ' ' ≤ '9') from rfl] at hl
          rw [decide_eq_false_iff_not] at hl
          exact hl hcon
  | cons d ds ih =>
      show takeDigits (d :: (ds ++ l)) = (d :: ds, l)
      unfold takeDigits
      have hdd : isDigitChar d = true := hd d (List.mem_cons_self d ds)
      rw [if_pos (by rw [isDigitChar] at hdd; exact of_decide_eq_true hdd)]
      rw [ih (fun c hc => hd c (List.mem_cons_of_mem d hc))]

lemma isDigitChar_ne (d c : Char) (hd : isDigitChar d = true)
    (hc : isDigitChar c = false) : ¬(d = c) := by
  intro he
  rw [he, hc] at hd
  exact Bool.noConfusion hd

lemma nat_lt_ten_pow_succ (n : Nat) : n < 10 ^ (n + 1) := by
  calc n < 10 ^ n := Nat.lt_pow_self (by norm_num) n
  _ ≤ 10 ^ (n + 1) := Nat.pow_le_pow_right (by norm_num) (Nat.le_succ n)

lemma parseIntTok_intToDecimal (n : Int) (l : List Char)
    (hl : isDigitChar (l.headD ' ') = false) :
    parseIntTok ((intToDecimal n).data ++ l) = some (n, l) := by
  have hdigits := natToDigitsAux_all_digits (n.natAbs + 1) n.natAbs
  have hne := natToDigitsAux_ne_nil n.natAbs n.natAbs
  have hvalue := digitsToNat_natToDigitsAux (n.natAbs + 1) n.natAbs
    (nat_lt_ten_pow_succ n.natAbs)
  by_cases hn : n < 0
  · rw [show intToDecimal n = "-" ++ natToDecimal n.natAbs from if_pos hn]
    rw [String.data_append]
    rw [show ("-" : String).data = ['-'] from rfl]
    rw [show (natToDecimal n.natAbs).data = natToDigitsAux (n.natAbs + 1) n.natAbs from rfl]
    show parseIntTok ('-' :: (natToDigitsAux (n.natAbs + 1) n.natAbs ++ l)) = some (n, l)
    unfold parseIntTok
    rw [if_pos (show (('-' :: (natToDigitsAux (n.natAbs + 1) n.natAbs ++ l)).headD ' ') = '-'
      from rfl)]
    rw [show ('-' :: (natToDigitsAux (n.natAbs + 1) n.natAbs ++ l)).drop 1
      = natToDigitsAux (n.natAbs + 1) n.natAbs ++ l from rfl]
    rw [takeDigits_digits_append _ _ hdigits hl]
    show (if natToDigitsAux (n.natAbs + 1) n.natAbs = [] then none
      else some (-(digitsToNat (natToDigitsAux (n.natAbs + 1) n.natAbs) : Int), l))
      = some (n, l)
    rw [if_neg hne, hvalue]
    have : -(n.natAbs : Int) = n := by omega
    rw [this]
  · rw [show intToDecimal n = natToDecimal n.natAbs from if_neg hn]
    rw [show (natToDecimal n.natAbs).data = natToDigitsAux (n.natAbs + 1) n.natAbs from rfl]
    cases hds : natToDigitsAux (n.natAbs + 1) n.natAbs with
    | nil => exact absurd hds hne
    | cons d ds =>
        rw [hds] at hdigits hvalue
        have hdd : isDigitChar d = true := hdigits d (List.mem_cons_self d ds)
        show parseIntTok (d :: (ds ++ l)) = some (n, l)
        unfold parseIntTok
        rw [if_neg (show ¬((d :: (ds ++ l)).headD ' ' = '-') from
          isDigitChar_ne d '-' hdd (by decide))]
        rw [show d :: (ds ++ l) = (d :: ds) ++ l from rfl]
        rw [takeDigits_digits_append _ _ hdigits hl]
        show (if (d :: ds : List Char) = [] then none
          else some ((digitsToNat (d :: ds) : Int), l)) = some (n, l)
        rw [if_neg (by simp), hvalue]
        have : ((n.natAbs : Int)) = n := by omega
        rw [this]

lemma take_succ_cons_ne (a b : Char) (as bs : List Char) (n : Nat) (h : ¬(a = b)) :
    ¬((a :: as).take (n+1) = b :: bs) := by
  rw [List.take_succ_cons]
  intro he
  injection he with he1 he2
  exact h he1

lemma escapeJsonChar_length_pos (c : Char) : 1 ≤ (escapeJsonChar c).length := by
  unfold escapeJsonChar
  split_ifs <;> simp

lemma escape_flatten_length (xs : List Char) :
    xs.length ≤ ((xs.map escapeJsonChar).flatten).length := by
  induction xs with
  | nil => simp
  | cons c cs ih =>
      rw [List.map_cons, List.flatten_cons, List.length_append, List.length_cons]
      have := escapeJsonChar_length_pos c
      omega

lemma parseScalar_ser (v : Scalar) (hv : scalarExact v = true) (l : List Char)
    (sfuel : Nat) (hsf : (serScalar v).data.length ≤ sfuel)
    (hl : isDigitChar (l.headD ' ') = false) :
    parseScalar sfuel ((serScalar v).data ++ l) = some (v, l) := by
  cases v with
  | null => rfl
  | b bv => cases bv <;> rfl
  | f q => exact absurd hv (by simp [scalarExact])
  | s str =>
      rw [show (serScalar (.s str)).data
        = '"' :: ((str.data.map escapeJsonChar).flatten ++ ['"']) from rfl]
      rw [show ('"' :: ((str.data.map escapeJsonChar).flatten ++ ['"'])) ++ l
        = '"' :: ((str.data.map escapeJsonChar).flatten ++ '"' :: l) from by simp]
      unfold parseScalar
      rw [if_neg (take_succ_cons_ne _ _ _ _ _ (by decide)),
        if_neg (take_succ_cons_ne _ _ _ _ _ (by decide)),
        if_neg (take_succ_cons_ne _ _ _ _ _ (by decide)),
        if_pos (show (('"' :: ((str.data.map escapeJsonChar).flatten ++ '"' :: l)).headD ' ')
          = '"' from rfl)]
      rw [show ('"' :: ((str.data.map escapeJsonChar).flatten ++ '"' :: l)).drop 1
        = (str.data.map escapeJsonChar).flatten ++ '"' :: l from rfl]
      have hfa : str.data.length + 1 ≤ sfuel := by
        have h1 := escape_flatten_length str.data
        have h2 : (serScalar (.s str)).data.length
            = ((str.data.map escapeJsonChar).flatten).length + 2 := by
          rw [show (serScalar (.s str)).data
            = '"' :: ((str.data.map escapeJsonChar).flatten ++ ['"']) from rfl]
          simp
        omega
      rw [parseStringBody_escape_list str.data l sfuel hfa]
      rfl
  | i m =>
      rw [show serScalar (.i m) = intToDecimal m from rfl]
      have hne := natToDigitsAux_ne_nil m.natAbs m.natAbs
      have hdigits := natToDigitsAux_all_digits (m.natAbs + 1) m.natAbs
      have hhead : ∃ d ds, (intToDecimal m).data = d :: ds ∧
          (d = '-' ∨ isDigitChar d = true) := by
        by_cases hm : m < 0
        · refine ⟨'-', (natToDecimal m.natAbs).data, ?_, Or.inl rfl⟩
          rw [show intToDecimal m = "-" ++ natToDecimal m.natAbs from if_pos hm,
            String.data_append]
          rfl
        · rw [show intToDecimal m = natToDecimal m.natAbs from if_neg hm]
          cases hds : natToDigitsAux (m.natAbs + 1) m.natAbs with
          | nil => exact absurd hds hne
          | cons d ds =>
              refine ⟨d, ds, ?_, Or.inr ?_⟩
              · rw [show (natToDecimal m.natAbs).data
                  = natToDigitsAux (m.natAbs + 1) m.natAbs from rfl, hds]
              · rw [hds] at hdigits
                exact hdigits d (List.mem_cons_self d ds)
      obtain ⟨d, ds, hdds, hd⟩ := hhead
      have hdn : ¬(d = 'n') := by
        rcases hd with h | h
        · rw [h]; decide
        · exact isDigitChar_ne d 'n' h (by decide)
      have hdt : ¬(d = 't') := by
        rcases hd with h | h
        · rw [h]; decide
        · exact isDigitChar_ne d 't' h (by decide)
      have hdf : ¬(d = 'f') := by
        rcases hd with h | h
        · rw [h]; decide
        · exact isDigitChar_ne d 'f' h (by decide)
      have hdq : ¬(d = '"') := by
        rcases hd with h | h
        · rw [h]; decide
        · exact isDigitChar_ne d '"' h (by decide)
      have hint := parseIntTok_intToDecimal m l hl
      rw [hdds]
      rw [hdds] at hint
      show parseScalar sfuel ((d :: ds) ++ l) = some (.i m, l)
      unfold parseScalar
      rw [show (d :: ds) ++ l = d :: (ds ++ l) from rfl]
      rw [if_neg (take_succ_cons_ne _ _ _ _ _ hdn),
        if_neg (take_succ_cons_ne _ _ _ _ _ hdt),
        if_neg (take_succ_cons_ne _ _ _ _ _ hdf),
        if_neg (show ¬(((d :: (ds ++ l)).headD ' ') = '"') from hdq)]
      rw [show d :: (ds ++ l) = (d :: ds) ++ l from rfl, hint]
      rfl

lemma intToDecimal_head (m : Int) : ∃ d ds, (intToDecimal m).data = d :: ds ∧
    (d = '-' ∨ isDigitChar d = true) := by
  have hne := natToDigitsAux_ne_nil m.natAbs m.natAbs
  have hdigits := natToDigitsAux_all_digits (m.natAbs + 1) m.natAbs
  by_cases hm : m < 0
  · refine ⟨'-', (natToDecimal m.natAbs).data, ?_, Or.inl rfl⟩
    rw [show intToDecimal m = "-" ++ natToDecimal m.natAbs from if_pos hm,
      String.data_append]
    rfl
  · rw [show intToDecimal m = natToDecimal m.natAbs from if_neg hm]
    cases hds : natToDigitsAux (m.natAbs + 1) m.natAbs with
    | nil => exact absurd hds hne
    | cons d ds =>
        refine ⟨d, ds, ?_, Or.inr ?_⟩
        · rw [show (natToDecimal m.natAbs).data
            = natToDigitsAux (m.natAbs + 1) m.natAbs from rfl, hds]
        · rw [hds] at hdigits
          exact hdigits d (List.mem_cons_self d ds)

lemma serScalar_head_not_ws (v : Scalar) (hvx : scalarExact v = true) (r : List Char) :
    skipWs ((serScalar v).data ++ r) = (serScalar v).data ++ r := by
  cases v with
  | null => exact skipWs_cons_not_ws _ _ (by decide)
  | b bv => cases bv <;> exact skipWs_cons_not_ws _ _ (by decide)
  | f q => exact absurd hvx (by simp [scalarExact])
  | s str => exact skipWs_cons_not_ws _ _ (by decide)
  | i m =>
      obtain ⟨d, ds, hdds, hd⟩ := intToDecimal_head m
      rw [show serScalar (.i m) = intToDecimal m from rfl, hdds]
      refine skipWs_cons_not_ws _ _ ?_
      rcases hd with h | h
      · rw [h]; decide
      · exact isDigitChar_not_ws d h

lemma parseMemberKV_ser (sfuel lvl : Nat) (k : String) (v : Scalar)
    (hvx : scalarExact v = true) (hk : k.data.length + 1 ≤ sfuel)
    (hv2 : (serScalar v).data.length ≤ sfuel) (tail : List Char)
    (htl : isDigitChar (tail.headD ' ') = false) :
    parseMemberKV sfuel ('\n' :: ((serMember (lvl+1) (k, v)).data ++ tail))
      = some ((k, v), tail) := by
  have hmem : (serMember (lvl+1) (k, v)).data ++ tail
      = List.replicate (2*(lvl+1)) ' ' ++ ('"' ::
          ((k.data.map escapeJsonChar).flatten ++ ('"' :: (':' :: (' ' ::
            ((serScalar v).data ++ tail)))))) := by
    show (((indentPad (lvl+1) ++ serString k) ++ ": ") ++ serScalar v).data ++ tail = _
    rw [String.data_append, String.data_append, String.data_append]
    rw [show (indentPad (lvl+1)).data = List.replicate (2*(lvl+1)) ' ' from rfl]
    rw [show (serString k).data
      = '"' :: ((k.data.map escapeJsonChar).flatten ++ ['"']) from rfl]
    rw [show (": " : String).data = [':', ' '] from rfl]
    simp [List.append_assoc]
  rw [hmem]
  have e1 : skipWs ('\n' :: (List.replicate (2*(lvl+1)) ' ' ++ ('"' ::
        ((k.data.map escapeJsonChar).flatten ++ ('"' :: (':' :: (' ' ::
          ((serScalar v).data ++ tail)))))))) = '"' ::
        ((k.data.map escapeJsonChar).flatten ++ ('"' :: (':' :: (' ' ::
          ((serScalar v).data ++ tail))))) := by
    rw [skipWs_cons_ws _ _ (by decide), skipWs_replicate_space,
      skipWs_cons_not_ws _ _ (by decide)]
  have e2 : parseStringBody sfuel ((k.data.map escapeJsonChar).flatten ++ ('"' :: (':' :: (' ' ::
        ((serScalar v).data ++ tail))))) = some (k.data, ':' :: (' ' ::
        ((serScalar v).data ++ tail))) :=
    parseStringBody_escape_list k.data _ sfuel hk
  have e3 : skipWs (':' :: (' ' :: ((serScalar v).data ++ tail)))
      = ':' :: (' ' :: ((serScalar v).data ++ tail)) :=
    skipWs_cons_not_ws _ _ (by decide)
  have e4 : skipWs (' ' :: ((serScalar v).data ++ tail))
      = (serScalar v).data ++ tail := by
    rw [skipWs_cons_ws _ _ (by decide), serScalar_head_not_ws v hvx]
  have e5 : parseScalar sfuel ((serScalar v).data ++ tail) = some (v, tail) :=
    parseScalar_ser v hvx tail sfuel hv2 htl
  unfold parseMemberKV
  rw [e1]
  show (match parseStringBody sfuel ((k.data.map escapeJsonChar).flatten ++ ('"' :: (':' :: (' ' ::
        ((serScalar v).data ++ tail))))) with
    | some (kcs, rest1) =>
        match skipWs rest1 with
        | ':' :: rest2 =>
            (parseScalar sfuel (skipWs rest2)).map (fun p => ((String.mk kcs, p.1), p.2))
        | _ => none
    | none => none) = some ((k, v), tail)
  rw [e2]
  show (match skipWs (':' :: (' ' :: ((serScalar v).data ++ tail))) with
    | ':' :: rest2 =>
        (parseScalar sfuel (skipWs rest2)).map (fun p => ((String.mk k.data, p.1), p.2))
    | _ => none) = some ((k, v), tail)
  rw [e3]
  show (parseScalar sfuel (skipWs (' ' :: ((serScalar v).data ++ tail)))).map
      (fun p => ((String.mk k.data, p.1), p.2)) = some ((k, v), tail)
  rw [e4, e5]
  rfl

lemma skipWs_all_ws_append (wsl : List Char)
    (hws : ∀ c ∈ wsl, (c = ' ' ∨ c = '\n' ∨ c = '\t' ∨ c = '\r')) (x : List Char) :
    skipWs (wsl ++ x) = skipWs x := by
  induction wsl with
  | nil => rfl
  | cons c cs ih =>
      rw [List.cons_append, skipWs_cons_ws c _ (hws c (List.mem_cons_self c cs)),
        ih (fun d hd => hws d (List.mem_cons_of_mem c hd))]

lemma parseMembersAux_ser (sfuel : Nat) (ms : List (String × Scalar)) (lvl : Nat)
    (hex : ∀ kv ∈ ms, scalarExact kv.2 = true)
    (hsf : ∀ kv ∈ ms, kv.1.data.length + 1 ≤ sfuel ∧ (serScalar kv.2).data.length ≤ sfuel)
    (mfuel : Nat) (hmf : ms.length ≤ mfuel) (hne : ms ≠ []) (l : List Char) :
    parseMembersAux sfuel mfuel
      ('\n' :: ((joinSep ",\n" (ms.map (serMember (lvl+1)))).data ++
        ('\n' :: ((indentPad lvl).data ++ ('\x7d' :: l))))) = some (ms, l) := by
  induction ms generalizing mfuel l with
  | nil => exact absurd rfl hne
  | cons m rest ih =>
      obtain ⟨k, v⟩ := m
      match mfuel, hmf with
      | mf+1, hmf =>
          cases rest with
          | nil =>
              rw [show joinSep ",\n" ([(k, v)].map (serMember (lvl+1)))
                = serMember (lvl+1) (k, v) from rfl]
              show parseMembersAux sfuel (mf+1) ('\n' ::
                ((serMember (lvl+1) (k, v)).data ++ ('\n' ::
                  ((indentPad lvl).data ++ ('\x7d' :: l))))) = some ([(k, v)], l)
              unfold parseMembersAux
              rw [parseMemberKV_ser sfuel lvl k v
                (hex (k, v) (List.mem_cons_self _ _))
                (hsf (k, v) (List.mem_cons_self _ _)).1
                (hsf (k, v) (List.mem_cons_self _ _)).2
                ('\n' :: ((indentPad lvl).data ++ ('\x7d' :: l)))
                (by rfl)]
              show (match skipWs ('\n' :: ((indentPad lvl).data ++ ('\x7d' :: l))) with
                | ',' :: rest4 =>
                    (parseMembersAux sfuel mf rest4).map (fun p => ((k, v) :: p.1, p.2))
                | '\x7d' :: rest4 => some ([(k, v)], rest4)
                | _ => none) = some ([(k, v)], l)
              rw [skipWs_cons_ws _ _ (by decide),
                show (indentPad lvl).data = List.replicate (2*lvl) ' ' from rfl,
                skipWs_replicate_space, skipWs_cons_not_ws _ _ (by decide)]
              rfl
          | cons m2 rest2 =>
              rw [show joinSep ",\n" (((k, v) :: m2 :: rest2).map (serMember (lvl+1)))
                = serMember (lvl+1) (k, v) ++ ",\n" ++
                  joinSep ",\n" ((m2 :: rest2).map (serMember (lvl+1))) from rfl]
              have hstream : (serMember (lvl+1) (k, v) ++ ",\n" ++
                  joinSep ",\n" ((m2 :: rest2).map (serMember (lvl+1)))).data ++
                    ('\n' :: ((indentPad lvl).data ++ ('\x7d' :: l)))
                = (serMember (lvl+1) (k, v)).data ++ (',' :: ('\n' ::
                    ((joinSep ",\n" ((m2 :: rest2).map (serMember (lvl+1)))).data ++
                      ('\n' :: ((indentPad lvl).data ++ ('\x7d' :: l)))))) := by
                rw [String.data_append, String.data_append,
                  show ((",\n") : String).data = [',', '\n'] from rfl]
                simp [List.append_assoc]
              rw [hstream]
              unfold parseMembersAux
              rw [parseMemberKV_ser sfuel lvl k v
                (hex (k, v) (List.mem_cons_self _ _))
                (hsf (k, v) (List.mem_cons_self _ _)).1
                (hsf (k, v) (List.mem_cons_self _ _)).2
                (',' :: ('\n' ::
                  ((joinSep ",\n" ((m2 :: rest2).map (serMember (lvl+1)))).data ++
                    ('\n' :: ((indentPad lvl).data ++ ('\x7d' :: l))))))
                (by rfl)]
              show (match skipWs (',' :: ('\n' ::
                  ((joinSep ",\n" ((m2 :: rest2).map (serMember (lvl+1)))).data ++
                    ('\n' :: ((indentPad lvl).data ++ ('\x7d' :: l)))))) with
                | ',' :: rest4 =>
                    (parseMembersAux sfuel mf rest4).map (fun p => ((k, v) :: p.1, p.2))
                | '\x7d' :: rest4 => some ([(k, v)], rest4)
                | _ => none) = some ((k, v) :: m2 :: rest2, l)
              rw [skipWs_cons_not_ws _ _ (by decide)]
              show (parseMembersAux sfuel mf ('\n' ::
                  ((joinSep ",\n" ((m2 :: rest2).map (serMember (lvl+1)))).data ++
                    ('\n' :: ((indentPad lvl).data ++ ('\x7d' :: l)))))).map
                  (fun p => ((k, v) :: p.1, p.2)) = some ((k, v) :: m2 :: rest2, l)
              rw [ih (fun kv hkv => hex kv (List.mem_cons_of_mem _ hkv))
                (fun kv hkv => hsf kv (List.mem_cons_of_mem _ hkv))
                mf (by rw [List.length_cons] at hmf; omega) (by simp) l]
              rfl

lemma serMember_len (lvl : Nat) (kv : String × Scalar) :
    kv.1.data.length + 1 ≤ (serMember lvl kv).data.length ∧
    (serScalar kv.2).data.length ≤ (serMember lvl kv).data.length ∧
    1 ≤ (serMember lvl kv).data.length := by
  have h1 := escape_flatten_length kv.1.data
  have hd : (serMember lvl kv).data
      = (indentPad lvl).data ++ ((serString kv.1).data ++
          ((": " : String).data ++ (serScalar kv.2).data)) := by
    show (((indentPad lvl ++ serString kv.1) ++ ": ") ++ serScalar kv.2).data = _
    rw [String.data_append, String.data_append, String.data_append,
      List.append_assoc, List.append_assoc]
  rw [hd, show (serString kv.1).data
    = '"' :: ((kv.1.data.map escapeJsonChar).flatten ++ ['"']) from rfl]
  simp only [List.length_append, List.length_cons, List.length_singleton]
  omega

lemma joinSep_members_bounds (lvl : Nat) (ms : List (String × Scalar)) :
    ms.length ≤ (joinSep ",\n" (ms.map (serMember lvl))).data.length ∧
    (∀ kv ∈ ms, (serMember lvl kv).data.length ≤
      (joinSep ",\n" (ms.map (serMember lvl))).data.length) := by
  induction ms with
  | nil =>
      constructor
      · simp [joinSep]
      · intro kv hkv
        simp at hkv
  | cons m rest ih =>
      cases rest with
      | nil =>
          rw [show joinSep ",\n" ([m].map (serMember lvl)) = serMember lvl m from rfl]
          have := (serMember_len lvl m).2.2
          constructor
          · simpa using this
          · intro kv hkv
            simp at hkv
            rw [hkv]
      | cons m2 rest2 =>
          have hj : (joinSep ",\n" ((m :: m2 :: rest2).map (serMember lvl))).data.length
              = (serMember lvl m).data.length + 2 +
                (joinSep ",\n" ((m2 :: rest2).map (serMember lvl))).data.length := by
            rw [show joinSep ",\n" ((m :: m2 :: rest2).map (serMember lvl))
              = serMember lvl m ++ ",\n" ++
                joinSep ",\n" ((m2 :: rest2).map (serMember lvl)) from rfl]
            rw [String.data_append, String.data_append,
              show ((",\n") : String).data = [',', '\n'] from rfl]
            simp [List.length_append]
            omega
          obtain ⟨ihc, ihm⟩ := ih
          constructor
          · rw [List.length_cons, hj]
            have := (serMember_len lvl m).2.2
            omega
          · intro kv hkv
            rcases List.mem_cons.mp hkv with he | hm2
            · rw [he, hj]
              omega
            · rw [hj]
              have := ihm kv hm2
              omega

lemma serRecord_len (lvl : Nat) (m : String × Scalar) (rest : List (String × Scalar)) :
    (joinSep ",\n" ((m :: rest).map (serMember (lvl+1)))).data.length
      ≤ (serRecord lvl (m :: rest)).data.length := by
  rw [show serRecord lvl (m :: rest)
    = "\x7b\n" ++ joinSep ",\n" ((m :: rest).map (serMember (lvl+1))) ++ "\n" ++
      indentPad lvl ++ "\x7d" from rfl]
  rw [String.data_append, String.data_append, String.data_append, String.data_append]
  simp [List.length_append]
  omega

lemma skipWs_member_stream (lvl : Nat) (k : String) (v : Scalar) (tail : List Char) :
    skipWs ('\n' :: ((serMember (lvl+1) (k, v)).data ++ tail))
      = '"' :: ((k.data.map escapeJsonChar).flatten ++ ('"' :: (':' :: (' ' ::
          ((serScalar v).data ++ tail))))) := by
  have hmem : (serMember (lvl+1) (k, v)).data ++ tail
      = List.replicate (2*(lvl+1)) ' ' ++ ('"' ::
          ((k.data.map escapeJsonChar).flatten ++ ('"' :: (':' :: (' ' ::
            ((serScalar v).data ++ tail)))))) := by
    show (((indentPad (lvl+1) ++ serString k) ++ ": ") ++ serScalar v).data ++ tail = _
    rw [String.data_append, String.data_append, String.data_append]
    rw [show (indentPad (lvl+1)).data = List.replicate (2*(lvl+1)) ' ' from rfl]
    rw [show (serString k).data
      = '"' :: ((k.data.map escapeJsonChar).flatten ++ ['"']) from rfl]
    rw [show (": " : String).data = [':', ' '] from rfl]
    simp [List.append_assoc]
  rw [hmem, skipWs_cons_ws _ _ (by decide), skipWs_replicate_space,
    skipWs_cons_not_ws _ _ (by decide)]

lemma parseRecord_ser (sfuel mfuel lvl : Nat) (r : List (String × Scalar))
    (hex : ∀ kv ∈ r, scalarExact kv.2 = true)
    (hsf : ∀ kv ∈ r, kv.1.data.length + 1 ≤ sfuel ∧ (serScalar kv.2).data.length ≤ sfuel)
    (hmf : r.length ≤ mfuel)
    (wsl : List Char) (hws : ∀ c ∈ wsl, (c = ' ' ∨ c = '\n' ∨ c = '\t' ∨ c = '\r'))
    (l : List Char) :
    parseRecord sfuel mfuel (wsl ++ ((serRecord lvl r).data ++ l)) = some (r, l) := by
  unfold parseRecord
  rw [skipWs_all_ws_append wsl hws]
  cases r with
  | nil =>
      rw [show (serRecord lvl []).data = ['\x7b', '\x7d'] from rfl]
      rw [show (['\x7b', '\x7d'] : List Char) ++ l = '\x7b' :: ('\x7d' :: l) from rfl]
      rw [skipWs_cons_not_ws _ _ (by decide)]
      show (match skipWs ('\x7d' :: l) with
        | '\x7d' :: rest => some (([] : List (String × Scalar)), rest)
        | _ => parseMembersAux sfuel mfuel ('\x7d' :: l)) = some ([], l)
      rw [skipWs_cons_not_ws _ _ (by decide)]
      rfl
  | cons m rest =>
      have hrec : (serRecord lvl (m :: rest)).data ++ l
          = '\x7b' :: ('\n' ::
              ((joinSep ",\n" ((m :: rest).map (serMember (lvl+1)))).data ++
                ('\n' :: ((indentPad lvl).data ++ ('\x7d' :: l))))) := by
        rw [show serRecord lvl (m :: rest)
          = "\x7b\n" ++ joinSep ",\n" ((m :: rest).map (serMember (lvl+1))) ++ "\n" ++
            indentPad lvl ++ "\x7d" from rfl]
        rw [String.data_append, String.data_append, String.data_append,
          String.data_append]
        rw [show ("\x7b\n" : String).data = ['\x7b', '\n'] from rfl,
          show ("\n" : String).data = ['\n'] from rfl,
          show ("\x7d" : String).data = ['\x7d'] from rfl]
        simp [List.append_assoc]
      rw [hrec, skipWs_cons_not_ws _ _ (by decide)]
      obtain ⟨kk, vv⟩ := m
      have hY : ∃ Y, skipWs ('\n' ::
          ((joinSep ",\n" (((kk, vv) :: rest).map (serMember (lvl+1)))).data ++
            ('\n' :: ((indentPad lvl).data ++ ('\x7d' :: l))))) = '"' :: Y := by
        cases rest with
        | nil =>
            rw [show joinSep ",\n" ([(kk, vv)].map (serMember (lvl+1)))
              = serMember (lvl+1) (kk, vv) from rfl]
            exact ⟨_, skipWs_member_stream lvl kk vv _⟩
        | cons m2 rest2 =>
            rw [show joinSep ",\n" (((kk, vv) :: m2 :: rest2).map (serMember (lvl+1)))
              = serMember (lvl+1) (kk, vv) ++ ",\n" ++
                joinSep ",\n" ((m2 :: rest2).map (serMember (lvl+1))) from rfl]
            have hstream : (serMember (lvl+1) (kk, vv) ++ ",\n" ++
                joinSep ",\n" ((m2 :: rest2).map (serMember (lvl+1)))).data ++
                  ('\n' :: ((indentPad lvl).data ++ ('\x7d' :: l)))
              = (serMember (lvl+1) (kk, vv)).data ++ (',' :: ('\n' ::
                  ((joinSep ",\n" ((m2 :: rest2).map (serMember (lvl+1)))).data ++
                    ('\n' :: ((indentPad lvl).data ++ ('\x7d' :: l)))))) := by
              rw [String.data_append, String.data_append,
                show ((",\n") : String).data = [',', '\n'] from rfl]
              simp [List.append_assoc]
            rw [hstream]
            exact ⟨_, skipWs_member_stream lvl kk vv _⟩
      obtain ⟨Y, hYe⟩ := hY
      show (match skipWs ('\n' ::
          ((joinSep ",\n" (((kk, vv) :: rest).map (serMember (lvl+1)))).data ++
            ('\n' :: ((indentPad lvl).data ++ ('\x7d' :: l))))) with
        | '\x7d' :: rest2 => some (([] : List (String × Scalar)), rest2)
        | _ => parseMembersAux sfuel mfuel ('\n' ::
            ((joinSep ",\n" (((kk, vv) :: rest).map (serMember (lvl+1)))).data ++
              ('\n' :: ((indentPad lvl).data ++ ('\x7d' :: l)))))) = some ((kk, vv) :: rest, l)
      rw [hYe]
      show parseMembersAux sfuel mfuel ('\n' ::
          ((joinSep ",\n" (((kk, vv) :: rest).map (serMember (lvl+1)))).data ++
            ('\n' :: ((indentPad lvl).data ++ ('\x7d' :: l))))) = some ((kk, vv) :: rest, l)
      exact parseMembersAux_ser sfuel ((kk, vv) :: rest) lvl hex hsf mfuel hmf (by simp) l

/-- C7: formatting a single-record list in json mode and parsing the result
reproduces the record exactly (round-trip), for records whose values are
exactly-serializable scalars (null, bool, int, str; floats go through
repr(float), outside the exact embedding). -/
theorem json_roundtrip_single (r : List (String × Scalar))
    (hex : ∀ kv ∈ r, scalarExact kv.2 = true) :
    parseJson (format_output (.list [r]) "json") = some (.list [r]) := by
  have hdoc : format_output (.list [r]) "json"
      = "[\n" ++ (indentPad 1 ++ serRecord 1 r) ++ "\n]" := rfl
  have hdata : ("[\n" ++ (indentPad 1 ++ serRecord 1 r) ++ "\n]").data
      = '[' :: ('\n' :: (' ' :: (' ' ::
          ((serRecord 1 r).data ++ ('\n' :: (']' :: [])))))) := by
    rw [String.data_append, String.data_append, String.data_append]
    rw [show ("[\n" : String).data = ['[', '\n'] from rfl,
      show (indentPad 1).data = [' ', ' '] from rfl,
      show ("\n]" : String).data = ['\n', ']'] from rfl]
    simp [List.append_assoc]
  have hhead : ∃ Z, (serRecord 1 r).data = '\x7b' :: Z := by
    cases r with
    | nil => exact ⟨_, rfl⟩
    | cons m t => exact ⟨_, rfl⟩
  obtain ⟨Z, hZ⟩ := hhead
  -- length bookkeeping
  have hLen : ("[\n" ++ (indentPad 1 ++ serRecord 1 r) ++ "\n]").data.length
      = (serRecord 1 r).data.length + 6 := by
    rw [hdata]
    simp
  have hjb := joinSep_members_bounds 2 r
  have hrecbound : ∀ kv ∈ r, kv.1.data.length + 1 ≤ (serRecord 1 r).data.length ∧
      (serScalar kv.2).data.length ≤ (serRecord 1 r).data.length := by
    intro kv hkv
    cases r with
    | nil => simp at hkv
    | cons m t =>
        have h1 := (serMember_len 2 kv).1
        have h2 := (serMember_len 2 kv).2.1
        have h3 := hjb.2 kv hkv
        have h4 : (joinSep ",\n" ((m :: t).map (serMember 2))).data.length
            ≤ (serRecord 1 (m :: t)).data.length := serRecord_len 1 m t
        exact ⟨by omega, by omega⟩
  have hcount : r.length ≤ (serRecord 1 r).data.length := by
    cases r with
    | nil => simp
    | cons m t =>
        have h1 := hjb.1
        have h4 : (joinSep ",\n" ((m :: t).map (serMember 2))).data.length
            ≤ (serRecord 1 (m :: t)).data.length := serRecord_len 1 m t
        omega
  have hL1 : ('[' :: ('\n' :: (' ' :: (' ' ::
      ((serRecord 1 r).data ++ ('\n' :: (']' :: []))))))).length
      = (serRecord 1 r).data.length + 6 := by
    simp
  have hL2 : ('[' :: (['\n', ' ', ' '] ++
      ((serRecord 1 r).data ++ ('\n' :: (']' :: []))))).length
      = (serRecord 1 r).data.length + 6 := by
    simp
  rw [hdoc]
  unfold parseJson
  rw [hdata, skipWs_cons_not_ws _ _ (by decide)]
  show (match skipWs ('\n' :: (' ' :: (' ' ::
        ((serRecord 1 r).data ++ ('\n' :: (']' :: [])))))) with
    | ']' :: rest2 => if skipWs rest2 = [] then some (PyData.list []) else none
    | _ =>
        match parseElemsAux
            (('[' :: ('\n' :: (' ' :: (' ' ::
              ((serRecord 1 r).data ++ ('\n' :: (']' :: []))))))).length + 1)
            (('[' :: ('\n' :: (' ' :: (' ' ::
              ((serRecord 1 r).data ++ ('\n' :: (']' :: []))))))).length + 1)
            ('\n' :: (' ' :: (' ' ::
              ((serRecord 1 r).data ++ ('\n' :: (']' :: [])))))) with
        | some (rs, rest2) => if skipWs rest2 = [] then some (PyData.list rs) else none
        | none => none) = some (PyData.list [r])
  have hsk : skipWs ('\n' :: (' ' :: (' ' ::
      ((serRecord 1 r).data ++ ('\n' :: (']' :: []))))))
      = '\x7b' :: (Z ++ ('\n' :: (']' :: []))) := by
    rw [skipWs_cons_ws _ _ (by decide), skipWs_cons_ws _ _ (by decide),
      skipWs_cons_ws _ _ (by decide), hZ]
    rw [show ('\x7b' :: Z) ++ ('\n' :: (']' :: []))
      = '\x7b' :: (Z ++ ('\n' :: (']' :: []))) from rfl]
    exact skipWs_cons_not_ws _ _ (by decide)
  rw [hsk]
  show (match parseElemsAux
        (('[' :: ('\n' :: (' ' :: (' ' ::
          ((serRecord 1 r).data ++ ('\n' :: (']' :: []))))))).length + 1)
        (('[' :: ('\n' :: (' ' :: (' ' ::
          ((serRecord 1 r).data ++ ('\n' :: (']' :: []))))))).length + 1)
        ('\n' :: (' ' :: (' ' ::
          ((serRecord 1 r).data ++ ('\n' :: (']' :: [])))))) with
    | some (rs, rest2) => if skipWs rest2 = [] then some (PyData.list rs) else none
    | none => none) = some (PyData.list [r])
  unfold parseElemsAux
  rw [show ('\n' :: (' ' :: (' ' :: ((serRecord 1 r).data ++ ('\n' :: (']' :: []))))))
    = ['\n', ' ', ' '] ++ ((serRecord 1 r).data ++ ('\n' :: (']' :: []))) from rfl]
  rw [parseRecord_ser _ _ 1 r hex
    (fun kv hkv => ⟨by have h6 := (hrecbound kv hkv).1
                       omega,
                    by have h6 := (hrecbound kv hkv).2
                       omega⟩)
    (by omega)
    ['\n', ' ', ' '] (by decide) ('\n' :: (']' :: []))]
  rfl

/-- Witness for C7: a concrete two-member record (int and string values)
round-trips through json formatting and parsing. -/
theorem json_roundtrip_single_witness :
    parseJson (format_output (.list [[("a", Scalar.i 1), ("b", Scalar.s "x")]]) "json")
      = some (.list [[("a", Scalar.i 1), ("b", Scalar.s "x")]]) :=
  json_roundtrip_single [("a", Scalar.i 1), ("b", Scalar.s "x")] (by decide)

set_option maxHeartbeats 8000000 in
lemma yoe_bracket (doe : Nat) (h : doe < 146097) :
    (doe - doe/1460 + doe/36524 - doe/146096)/365 ≤ 399 ∧
    365 * ((doe - doe/1460 + doe/36524 - doe/146096)/365) +
      ((doe - doe/1460 + doe/36524 - doe/146096)/365)/4 -
      ((doe - doe/1460 + doe/36524 - doe/146096)/365)/100 ≤ doe ∧
    doe - (365 * ((doe - doe/1460 + doe/36524 - doe/146096)/365) +
      ((doe - doe/1460 + doe/36524 - doe/146096)/365)/4 -
      ((doe - doe/1460 + doe/36524 - doe/146096)/365)/100) ≤ 365 := by
  obtain ⟨g, hg⟩ : ∃ g, doe / 1460 = g := ⟨_, rfl⟩
  have hgb : g ≤ 100 := by omega
  interval_cases g <;>
    first
      | omega
      | (obtain ⟨e, he⟩ : ∃ e, doe / 36524 = e := ⟨_, rfl⟩
         have heb : e ≤ 4 := by omega
         interval_cases e <;> omega)

lemma mday_step (doy : Nat) (h : doy ≤ 365) :
    (5*doy+2)/153 ≤ 11 ∧
    (153*((5*doy+2)/153)+2)/5 ≤ doy ∧
    doy - (153*((5*doy+2)/153)+2)/5 + 1 ≤ 31 ∧
    1 ≤ doy - (153*((5*doy+2)/153)+2)/5 + 1 ∧
    (153*((5*doy+2)/153)+2)/5 + (doy - (153*((5*doy+2)/153)+2)/5 + 1) - 1 = doy := by
  omega

set_option maxHeartbeats 1000000 in
lemma ord_roundtrip (n : Nat) :
    ymd2ord (ord2ymd n).1 (ord2ymd n).2.1 (ord2ymd n).2.2 = n := by
  have hzd : (n+305)/146097 * 146097 + (n+305) % 146097 = n + 305 := by
    omega
  have hdoeB : (n+305) % 146097 < 146097 := Nat.mod_lt _ (by norm_num)
  have hb := yoe_bracket ((n + 305) % 146097) hdoeB
  simp only [ord2ymd, ymd2ord]
  generalize hgen0 : (n + 305) / 146097 = era at hzd ⊢
  generalize hgen1 : (n + 305) % 146097 = doe at hzd hdoeB hb ⊢
  generalize hgen2 : (doe - doe/1460 + doe/36524 - doe/146096)/365 = yoe at hb ⊢
  have hmd := mday_step (doe - (365*yoe + yoe/4 - yoe/100)) hb.2.2
  have hyyq : (yoe + era * 400) / 400 = era := by omega
  have hyyr : (yoe + era * 400) % 400 = yoe := by omega
  split_ifs <;> (try simp only [Nat.add_sub_cancel]) <;> rw [hyyq, hyyr] <;> omega

set_option maxHeartbeats 1000000 in
lemma ord2ymd_bounds (n : Nat) (h1 : 364878 ≤ n) (h2 : n ≤ 3652059) :
    1000 ≤ (ord2ymd n).1 ∧ (ord2ymd n).1 ≤ 9999 ∧
    1 ≤ (ord2ymd n).2.1 ∧ (ord2ymd n).2.1 ≤ 12 ∧
    1 ≤ (ord2ymd n).2.2 ∧ (ord2ymd n).2.2 ≤ 31 := by
  have hzd : (n+305)/146097 * 146097 + (n+305) % 146097 = n + 305 := by omega
  have hdoeB : (n+305) % 146097 < 146097 := Nat.mod_lt _ (by norm_num)
  have hb := yoe_bracket ((n + 305) % 146097) hdoeB
  simp only [ord2ymd]
  generalize hgen0 : (n + 305) / 146097 = era at hzd ⊢
  generalize hgen1 : (n + 305) % 146097 = doe at hzd hdoeB hb ⊢
  generalize hgen2 : (doe - doe/1460 + doe/36524 - doe/146096)/365 = yoe at hb ⊢
  have hmd := mday_step (doe - (365*yoe + yoe/4 - yoe/100)) hb.2.2
  have heraL : 2 ≤ era := by omega
  have heraU : era ≤ 24 := by omega
  interval_cases era <;> split_ifs <;> (try simp only [Nat.add_sub_cancel]) <;> omega

lemma parseYmd_data (a b2 c d h1 e f h2 g h : Char) (s : String)
    (hs : s.data = [a, b2, c, d, h1, e, f, h2, g, h]) :
    parseYmd s =
      if h1 = '-' ∧ h2 = '-' ∧ isDigitChar a ∧ isDigitChar b2 ∧ isDigitChar c ∧
          isDigitChar d ∧ isDigitChar e ∧ isDigitChar f ∧ isDigitChar g ∧ isDigitChar h then
        some (((digitVal a * 10 + digitVal b2) * 10 + digitVal c) * 10 + digitVal d,
          digitVal e * 10 + digitVal f, digitVal g * 10 + digitVal h)
      else none := by
  unfold parseYmd
  rw [hs]

lemma digitVal_digitChar (k : Nat) (h : k < 10) : digitVal (digitChar k) = k := by
  unfold digitVal
  rw [digitChar_toNat k h]
  omega

lemma parseYmd_formatYmd (y m d : Nat) (hy1 : 1000 ≤ y) (hy : y ≤ 9999)
    (hm : 1 ≤ m) (hm2 : m ≤ 12) (hd : 1 ≤ d) (hd2 : d ≤ 31) :
    parseYmd (formatYmd (y, m, d)) = some (y, m, d) := by
  have hdata : (formatYmd (y, m, d)).data
      = [digitChar (y/1000 % 10), digitChar (y/100 % 10), digitChar (y/10 % 10),
         digitChar (y % 10), '-', digitChar (m/10 % 10), digitChar (m % 10), '-',
         digitChar (d/10 % 10), digitChar (d % 10)] := by
    show (((pad4 y ++ "-") ++ pad2 m ++ "-") ++ pad2 d).data = _
    rw [String.data_append, String.data_append, String.data_append,
      String.data_append]
    rfl
  rw [parseYmd_data _ _ _ _ _ _ _ _ _ _ _ hdata]
  rw [if_pos ⟨rfl, rfl,
    isDigitChar_digitChar _ (by omega), isDigitChar_digitChar _ (by omega),
    isDigitChar_digitChar _ (by omega), isDigitChar_digitChar _ (by omega),
    isDigitChar_digitChar _ (by omega), isDigitChar_digitChar _ (by omega),
    isDigitChar_digitChar _ (by omega), isDigitChar_digitChar _ (by omega)⟩]
  rw [digitVal_digitChar _ (by omega), digitVal_digitChar _ (by omega),
    digitVal_digitChar _ (by omega), digitVal_digitChar _ (by omega),
    digitVal_digitChar _ (by omega), digitVal_digitChar _ (by omega),
    digitVal_digitChar _ (by omega), digitVal_digitChar _ (by omega)]
  have e1 : ((y / 1000 % 10 * 10 + y / 100 % 10) * 10 + y / 10 % 10) * 10 + y % 10
      = y := by omega
  have e2 : m / 10 % 10 * 10 + m % 10 = m := by omega
  have e3 : d / 10 % 10 * 10 + d % 10 = d := by omega
  rw [e1, e2, e3]

/-- C9: when the technical command is invoked without a start date, the
history fetch uses a start date that is exactly 365 days (one year) before
the invocation time, rendered as a valid ISO calendar date YYYY-MM-DD; with a
start date given, that date is passed through unchanged.  The invocation time
is its Python ordinal; the window hypotheses keep the default date between
year 1000 and year 9999 so that strftime zero-pads the year to four digits. -/
theorem technical_default_start (startArg : String) (now : Nat)
    (h1 : 365243 ≤ now) (h2 : now ≤ 3652424) :
    technicalStartDate (some startArg) now = startArg ∧
    (∃ y m d, parseYmd (technicalStartDate none now) = some (y, m, d) ∧
      ymd2ord y m d = now - 365 ∧
      1000 ≤ y ∧ y ≤ 9999 ∧ 1 ≤ m ∧ m ≤ 12 ∧ 1 ≤ d ∧ d ≤ 31) := by
  refine ⟨rfl, ?_⟩
  obtain ⟨hy1, hy2, hm1, hm2, hd1, hd2⟩ :=
    ord2ymd_bounds (now - 365) (by omega) (by omega)
  refine ⟨(ord2ymd (now - 365)).1, (ord2ymd (now - 365)).2.1,
    (ord2ymd (now - 365)).2.2, ?_, ord_roundtrip (now - 365),
    hy1, hy2, hm1, hm2, hd1, hd2⟩
  show parseYmd (formatYmd (ord2ymd (now - 365))) = _
  exact parseYmd_formatYmd _ _ _ hy1 hy2 hm1 hm2 hd1 hd2

/-- Witness for C9: at the invocation ordinal of 2027-10-12, the default
start date is the ISO date exactly 365 days earlier, 2026-10-12; a given
start date is passed through. -/
theorem technical_default_start_witness :
    technicalStartDate (some "2024-01-01") 740266 = "2024-01-01" ∧
    (∃ y m d, parseYmd (technicalStartDate none 740266) = some (y, m, d) ∧
      ymd2ord y m d = 740266 - 365 ∧
      1000 ≤ y ∧ y ≤ 9999 ∧ 1 ≤ m ∧ m ≤ 12 ∧ 1 ≤ d ∧ d ≤ 31) ∧
    technicalStartDate none 740266 = "2026-10-12" :=
  ⟨(technical_default_start "2024-01-01" 740266 (by norm_num) (by norm_num)).1,
   (technical_default_start "2024-01-01" 740266 (by norm_num) (by norm_num)).2,
   by rfl⟩
